import Mathlib

/-! ChefBot (`CHEFBOT.cpp`): a shallow embedding and its verified properties

The program is a single-threaded console assistant.  Its observable state is
the text written to `cout`, the lines still to be read from `cin`, the three
append-only log files, the formatting flags of `cout` and the wall-clock hour.
All of that is carried explicitly in `World`; every member function of
`ChefBot` becomes a function `World → World`.

* `std::string` is a list of characters (`Str`); `toLower` and `find` are the
  helpers of the source / the standard library.
* `double` and `float` values are the rationals they denote; every operation
  that rounds in the machine (`0.15 * price`, `price + tax`, the literals
  `0.15` and `4.2f`) rounds here too, to 53 resp. 24 significant bits, ties to
  even.  All values of the program are far away from overflow and underflow.
* `operator<<` on a floating-point value is modelled digit by digit
  (`%g` resp. `%f` with the precision of the stream).
* `handleInput` is split into `dispatch`, the `if` / `else if` chain that picks a
  branch, and `Call.run`, which executes the picked branch.
* Reading a line past the end of the input yields the empty string, as
  `getline` does on the fresh strings the handlers read into.

`main`, `greet` and the unused helper `getValidPrice` are outside the
embedding; the `catch` blocks are not modelled, since none of the guarded
statements throws with the streams in their default exception mask.
-/

namespace CHEFBOT

/-! ## Strings -/

/-- A `std::string`. -/
abbrev Str := List Char

/-- Helper `toLower` of the source: `::tolower` applied to every character
(in the "C" locale only `A`..`Z` change). -/
def toLower (str : Str) : Str := str.map Char.toLower

/-- Member `std::string::find(pat)`: position of the first occurrence of `pat`,
`none` standing for `string::npos`. -/
def find (s pat : Str) : Option Nat :=
  if pat.isPrefixOf s then some 0
  else match s with
    | [] => none
    | _ :: t => (find t pat).map (· + 1)

/-- The test `s.find(pat) != string::npos`. -/
def found (s : Str) (pat : String) : Bool := (find s pat.toList).isSome

/-- Comparison `operator<` of `std::string` (lexicographic), the ordering of the
keys of `std::map<string, ...>`. -/
def strLt : Str → Str → Bool
  | [], [] => false
  | [], _ :: _ => true
  | _ :: _, [] => false
  | a :: as, b :: bs => if a < b then true else if b < a then false else strLt as bs

/-- The value `string(n, c)`. -/
def fill (n : Nat) (c : Char) : Str := List.replicate n c

/-! ## Floating point -/

/-- The rational `2 ^ d` for an integer exponent. -/
def pow2 : Int → ℚ
  | Int.ofNat n => ((2 ^ n : Nat) : ℚ)
  | Int.negSucc n => 1 / ((2 ^ (n + 1) : Nat) : ℚ)

/-- The rational `10 ^ d` for an integer exponent. -/
def pow10 : Int → ℚ
  | Int.ofNat n => ((10 ^ n : Nat) : ℚ)
  | Int.negSucc n => 1 / ((10 ^ (n + 1) : Nat) : ℚ)

/-- Nearest natural number of a non-negative rational, ties to even. -/
def roundHalfEven (q : ℚ) : Nat :=
  let f := q.floor.toNat
  let r := q - (f : ℚ)
  if r < 1 / 2 then f
  else if 1 / 2 < r then f + 1
  else if f % 2 = 0 then f else f + 1

/-- Number of binary digits of a natural number (`0` has one). -/
def bitLen (n : Nat) : Nat := (Nat.toDigits 2 n).length

/-- Largest `e` with `2 ^ e ≤ q`, for `0 < q`. -/
def ilog2 (q : ℚ) : Int :=
  let d : Int := (bitLen q.num.toNat : Int) - (bitLen q.den : Int)
  if pow2 d ≤ q then d else d - 1

/-- Number of decimal digits of a natural number (`0` has one). -/
def numDigits (n : Nat) : Nat := (Nat.toDigits 10 n).length

/-- Largest `e` with `10 ^ e ≤ q`, for `0 < q`. -/
def ilog10 (q : ℚ) : Int :=
  if 1 ≤ q then ((numDigits q.floor.toNat - 1 : Nat) : Int)
  else -((numDigits ((1 / q).ceil.toNat - 1) : Nat) : Int)

/-- Rounding to a binary floating-point format with `p` significant bits, round
to nearest, ties to even (exponent range not modelled). -/
def roundBits (p : Nat) (q : ℚ) : ℚ :=
  if q = 0 then 0
  else
    let a := |q|
    let ulp := pow2 (ilog2 a - ((p : Int) - 1))
    let r := (roundHalfEven (a / ulp) : ℚ) * ulp
    if q < 0 then -r else r

/-- Rounding to `double` (IEEE binary64). -/
def fl64 (q : ℚ) : ℚ := roundBits 53 q

/-- Rounding to `float` (IEEE binary32). -/
def fl32 (q : ℚ) : ℚ := roundBits 24 q

/-- The floating-point state of an `ostream`: whether `std::fixed` is set, and
the precision. -/
structure Fmt where
  fixed : Bool
  precision : Nat
deriving DecidableEq, Repr

/-- State of a freshly constructed stream (and of `cout` at program start). -/
def Fmt.default : Fmt := { fixed := false, precision := 6 }

/-- Left padding with `'0'` up to length `n`. -/
def padZeros (n : Nat) (ds : Str) : Str := List.replicate (n - ds.length) '0' ++ ds

/-- Removal of trailing zeros, and of a decimal point that ends the text. -/
def stripZeros (ds : Str) : Str :=
  let r := ds.reverse.dropWhile (· == '0')
  (match r with
   | '.' :: t => t
   | _ => r).reverse

/-- The digits of `n * 10 ^ (-decimals)` in positional notation. -/
def placePoint (n decimals : Nat) : Str :=
  if decimals = 0 then Nat.toDigits 10 n
  else
    let ds := padZeros (decimals + 1) (Nat.toDigits 10 n)
    ds.take (ds.length - decimals) ++ '.' :: ds.drop (ds.length - decimals)

/-- Conversion `%.<p>f` of a non-negative value. -/
def fmtFixed (p : Nat) (q : ℚ) : Str :=
  placePoint (roundHalfEven (q * pow10 p)) p

/-- Conversion `%.<p>g` of a non-negative value (without the `#` flag). -/
def fmtGeneral (p : Nat) (q : ℚ) : Str :=
  let p := if p = 0 then 1 else p
  if q = 0 then ['0']
  else
    let x0 := ilog10 q
    let n0 := roundHalfEven (q / pow10 (x0 - ((p : Int) - 1)))
    let x := if n0 = 10 ^ p then x0 + 1 else x0
    let n := if n0 = 10 ^ p then 10 ^ (p - 1) else n0
    if x < -4 ∨ (p : Int) ≤ x then
      let mant := stripZeros (placePoint n (p - 1))
      let e := padZeros 2 (Nat.toDigits 10 x.natAbs)
      mant ++ 'e' :: (if x < 0 then '-' else '+') :: e
    else
      let decimals := ((p : Int) - 1 - x).toNat
      if decimals = 0 then placePoint n 0 else stripZeros (placePoint n decimals)

/-- Text produced by `os << x` for a floating-point `x` on a stream with state
`f`. -/
def showDouble (f : Fmt) (q : ℚ) : Str :=
  let body := if f.fixed then fmtFixed f.precision |q| else fmtGeneral f.precision |q|
  if q < 0 then '-' :: body else body

/-! ## Data model -/

/-- Class `MenuItem`: a name and a price (`double`). -/
structure MenuItem where
  name : Str
  price : ℚ
deriving DecidableEq

/-- The type `map<string, vector<MenuItem>>`: the entries in ascending key order,
which is the order in which a range-for visits them. -/
abbrev MenuMap := List (Str × List MenuItem)

/-- Assignment `m[k] = v` on a `std::map`. -/
def mapAssign : MenuMap → Str → List MenuItem → MenuMap
  | [], k, v => [(k, v)]
  | (k0, v0) :: rest, k, v =>
    if strLt k k0 then (k, v) :: (k0, v0) :: rest
    else if strLt k0 k then (k0, v0) :: mapAssign rest k v
    else (k, v) :: rest

/-- Member `std::map::find`: `none` stands for `end()`. -/
def mapFind : MenuMap → Str → Option (List MenuItem)
  | [], _ => none
  | (k0, v0) :: rest, k => if k0 = k then some v0 else mapFind rest k

/-- Class `Restaurant` (the three derived classes add data only). -/
structure Restaurant where
  name : Str
  branches : List Str
  addresses : List Str
  rating : ℚ
  categorizedMenu : MenuMap
deriving DecidableEq

/-- Constructor `Cheezious::Cheezious`. -/
def Cheezious : Restaurant :=
  let r : Restaurant :=
    { name := "Cheezious".toList
      branches := ["I-8".toList, "G-10".toList, "F-11".toList]
      addresses := ["I-8 Islamabad".toList, "G-10 Islamabad".toList, "F-11 Islamabad".toList]
      rating := fl32 (45 / 10)
      categorizedMenu := [] }
  let m := mapAssign r.categorizedMenu "Burgers".toList
    [⟨"Zinger Burger".toList, 450⟩, ⟨"Cheese Zinger".toList, 480⟩,
     ⟨"Double Zinger".toList, 650⟩, ⟨"Spicy Zinger".toList, 500⟩]
  let m := mapAssign m "Pizzas".toList
    [⟨"Fajita Pizza".toList, 900⟩, ⟨"Pepperoni Pizza".toList, 950⟩]
  let m := mapAssign m "Pastas".toList
    [⟨"Creamy Pasta".toList, 600⟩, ⟨"Spicy Pasta".toList, 650⟩]
  { r with categorizedMenu := m }

/-- Constructor `Ranchers::Ranchers`. -/
def Ranchers : Restaurant :=
  let r : Restaurant :=
    { name := "Ranchers".toList
      branches := ["G-9".toList, "F-6".toList, "DHA".toList]
      addresses := ["G-9 Islamabad".toList, "F-6 Islamabad".toList, "DHA Lahore".toList]
      rating := fl32 (42 / 10)
      categorizedMenu := [] }
  let m := mapAssign r.categorizedMenu "Burgers".toList
    [⟨"Beef Burger".toList, 480⟩, ⟨"Cheesy Beef Burger".toList, 520⟩,
     ⟨"Ranch Beef Burger".toList, 580⟩, ⟨"Double Decker".toList, 620⟩]
  let m := mapAssign m "Wraps".toList
    [⟨"Grilled Wrap".toList, 300⟩, ⟨"Zinger Wrap".toList, 350⟩]
  let m := mapAssign m "Sandwiches".toList
    [⟨"Club Sandwich".toList, 400⟩, ⟨"Cheese Sandwich".toList, 370⟩]
  { r with categorizedMenu := m }

/-- Constructor `Howdy::Howdy`. -/
def Howdy : Restaurant :=
  let r : Restaurant :=
    { name := "Howdy".toList
      branches := ["Giga Mall".toList, "Blue Area".toList, "PWD".toList]
      addresses := ["Giga Mall Islamabad".toList, "Blue Area Islamabad".toList,
        "PWD Islamabad".toList]
      rating := fl32 (40 / 10)
      categorizedMenu := [] }
  let m := mapAssign r.categorizedMenu "Burgers".toList
    [⟨"Howdy Burger".toList, 550⟩, ⟨"Cheese Gun Burger".toList, 580⟩,
     ⟨"Wild West Burger".toList, 700⟩, ⟨"Bacon BBQ Burger".toList, 680⟩]
  let m := mapAssign m "BBQ".toList
    [⟨"BBQ Platter".toList, 1200⟩, ⟨"BBQ Ribs".toList, 1300⟩]
  let m := mapAssign m "Steaks".toList
    [⟨"Ribeye Steak".toList, 1400⟩, ⟨"T-Bone Steak".toList, 1600⟩]
  { r with categorizedMenu := m }

/-! ## The world: console, files, clock -/

/-- One of the text files the program appends to.  `canOpen` says whether
`ofstream f(path, ios::app)` yields a usable stream. -/
structure LogFile where
  canOpen : Bool
  text : Str
deriving DecidableEq

/-- Everything the program reads or changes outside its own objects. -/
structure World where
  /-- the lines not yet read from `cin` -/
  cin : List Str
  /-- everything written to `cout` so far -/
  cout : Str
  /-- floating-point flags of `cout` -/
  fmt : Fmt
  /-- what `localtime` yields: `none` for a null pointer, else `tm_hour` -/
  localHour : Option Nat
  chatLog : LogFile
  orderHistory : LogFile
  recommendations : LogFile
deriving DecidableEq

/-- Statement `cout << s` for text. -/
def World.print (w : World) (s : Str) : World := { w with cout := w.cout ++ s }

/-- Statement `cout << x` for a `double` or `float`. -/
def World.printNum (w : World) (x : ℚ) : World :=
  { w with cout := w.cout ++ showDouble w.fmt x }

/-- Statement `cout << fixed << setprecision(p)`. -/
def World.setFixed (w : World) (p : Nat) : World :=
  { w with fmt := { fixed := true, precision := p } }

/-- Call `getline(cin, s)` into an empty string `s`: the next line, or nothing
at all once the input is exhausted. -/
def getline (w : World) : Str × World :=
  match w.cin with
  | [] => ([], w)
  | l :: ls => (l, { w with cin := ls })

/-- Writing `s` to a stream opened in append mode on the file. -/
def LogFile.append (f : LogFile) (s : Str) : LogFile := { f with text := f.text ++ s }

/-! ## Class `Restaurant` -/

/-- Method `MenuItem::show`. -/
def MenuItem.show (item : MenuItem) (w : World) : World :=
  ((((w.print "   - ".toList).print item.name).print ": Rs ".toList).printNum item.price).print
    "\n".toList

/-- Method `Restaurant::showMenu`. -/
def Restaurant.showMenu (r : Restaurant) (w : World) : World :=
  r.categorizedMenu.foldl
    (fun w category =>
      category.2.foldl (fun w item => item.show w)
        (((w.print "  ".toList).print category.1).print ":\n".toList))
    w

/-- Method `Restaurant::showDetails`. -/
def Restaurant.showDetails (r : Restaurant) (w : World) : World :=
  let w := ((w.print "\n".toList).print (fill 50 '=')).print "\n".toList
  let w := ((((w.print "  ".toList).print r.name).print " (Rating: ".toList).printNum
    r.rating).print "/5)\n".toList
  let w := (w.print (fill 50 '=')).print "\n".toList
  let w := w.print " Branches:\n".toList
  let w := (List.range r.branches.length).foldl
    (fun w i =>
      ((((((w.print "   • ".toList).print r.name).print " ".toList).print
        (r.branches.getD i [])).print " - ".toList).print (r.addresses.getD i [])).print
        "\n".toList)
    w
  let w := w.print "\n Menu:\n".toList
  let w := r.showMenu w
  (w.print (fill 50 '=')).print "\n".toList

/-- Method `Restaurant::isOpenNow`, together with what it prints. -/
def Restaurant.isOpenNow (_r : Restaurant) (w : World) : Bool × World :=
  match w.localHour with
  | none => (false, w.print "Error getting current time.\n".toList)
  | some hour => (decide (12 ≤ hour ∧ hour ≤ 23), w)

/-! ## Class `ChefBot` -/

/-- Class `ChefBot`: its only member is the vector of restaurants. -/
structure ChefBot where
  restaurants : List Restaurant

/-- Constructor `ChefBot::ChefBot`. -/
def ChefBot.new : ChefBot := { restaurants := [Cheezious, Ranchers, Howdy] }

/-- Method `ChefBot::showHelp`. -/
def ChefBot.showHelp (_bot : ChefBot) (w : World) : World :=
  let w := ((w.print "\n".toList).print (fill 50 '=')).print "\n".toList
  let w := w.print " CHEFBOT COMMAND GUIDE\n".toList
  let w := (w.print (fill 50 '=')).print "\n".toList
  let w := w.print " INFORMATION COMMANDS:\n".toList
  let w := w.print "   • 'tell me about restaurants' - Show all restaurant info\n".toList
  let w := w.print "   • 'tell me about [restaurant name]' - Show specific restaurant\n".toList
  let w := w.print "     Examples: 'tell me about cheezious'\n".toList
  let w := w.print "               'tell me about ranchers'\n".toList
  let w := w.print "               'tell me about howdy'\n".toList
  let w := w.print "   • 'tell me about names' - Show restaurant names\n".toList
  let w := w.print "   • 'tell me about ratings' - Show restaurant ratings\n".toList
  let w := w.print "   • 'tell me about menu' - Show all menus\n".toList
  let w := w.print "   • 'tell me about addresses' - Show all addresses\n".toList
  let w := w.print "   • 'tell me about branches' - Show all branches\n\n".toList
  let w := w.print " ORDERING COMMANDS:\n".toList
  let w := w.print "   • 'order' - Start the ordering process\n".toList
  let w := w.print "   • 'place order' - Alternative ordering command\n\n".toList
  let w := w.print " RECOMMENDATION COMMANDS:\n".toList
  let w := w.print "   • 'recommend' - Show all items under Rs 500\n".toList
  let w := w.print "   • 'recommend burger' - Show burger recommendations\n".toList
  let w := w.print "   • 'recommend pizza' - Show pizza recommendations\n".toList
  let w := w.print "   • 'recommend pasta' - Show pasta recommendations\n".toList
  let w := w.print "   • 'recommend wrap' - Show wrap recommendations\n".toList
  let w := w.print "   • 'recommend sandwich' - Show sandwich recommendations\n\n".toList
  let w := w.print " LOCATION COMMANDS:\n".toList
  let w := w.print "   • 'nearest branch' - Find branches in your city\n".toList
  let w := w.print "   • 'find branches' - Alternative branch finder\n\n".toList
  let w := w.print " STATUS COMMANDS:\n".toList
  let w := w.print "   • '[restaurant name] open now' - Check if restaurant is open\n".toList
  let w := w.print "     Examples: 'cheezious open now'\n".toList
  let w := w.print "               'ranchers open status'\n".toList
  let w := w.print "               'howdy open now'\n\n".toList
  let w := w.print " HELP & EXIT:\n".toList
  let w := w.print "   • 'help' - Show this command guide\n".toList
  let w := w.print "   • 'commands' - Show available commands\n".toList
  let w := w.print "   • 'exit' - Quit ChefBot\n".toList
  let w := (w.print (fill 50 '=')).print "\n".toList
  let w := w.print " TIP: Commands are not case-sensitive!\n".toList
  (w.print (fill 50 '=')).print "\n".toList

/-- Method `ChefBot::showQuickCommands`. -/
def ChefBot.showQuickCommands (_bot : ChefBot) (w : World) : World :=
  let w := w.print "\n Quick Commands:\n".toList
  let w := w.print "• help - Show full command guide\n".toList
  let w := w.print "• tell me about restaurants - Show all info\n".toList
  let w := w.print "• order - Place an order\n".toList
  let w := w.print "• recommend - Get recommendations under Rs 500\n".toList
  let w := w.print "• nearest branch - Find branches near you\n".toList
  let w := w.print "• [restaurant] open now - Check opening status\n".toList
  w.print "• exit - Quit ChefBot\n".toList

/-- Method `ChefBot::showAllInfo`. -/
def ChefBot.showAllInfo (bot : ChefBot) (w : World) : World :=
  bot.restaurants.foldl (fun w r => r.showDetails w)
    (w.print "\n ALL RESTAURANTS INFORMATION:\n".toList)

/-- Method `ChefBot::showByField`. -/
def ChefBot.showByField (bot : ChefBot) (field : Str) (w : World) : World :=
  let w := w.print "\n".toList
  if field = "name".toList then
    bot.restaurants.foldl
      (fun w r => ((w.print "   • ".toList).print r.name).print "\n".toList)
      (w.print " RESTAURANT NAMES:\n".toList)
  else if field = "rating".toList then
    bot.restaurants.foldl
      (fun w r =>
        ((((w.print "   • ".toList).print r.name).print ": ".toList).printNum r.rating).print
          "/5\n".toList)
      (w.print " RESTAURANT RATINGS:\n".toList)
  else if field = "menu".toList ∨ field = "prices".toList then
    bot.restaurants.foldl
      (fun w r => r.showMenu (((w.print "\n".toList).print r.name).print ":\n".toList))
      (w.print " ALL RESTAURANT MENUS:\n".toList)
  else if field = "address".toList ∨ field = "branches".toList then
    bot.restaurants.foldl
      (fun w r =>
        r.addresses.foldl
          (fun w a => ((w.print "   • ".toList).print a).print "\n".toList)
          (((w.print "\n".toList).print r.name).print ":\n".toList))
      (w.print " RESTAURANT ADDRESSES:\n".toList)
  else
    (w.print " Sorry, I don't understand that field.\n".toList).print
      "Try: names, ratings, menu, addresses, or branches\n".toList

/-- The rounded product `0.15 * price` of `ChefBot::order`. -/
def orderTax (price : ℚ) : ℚ := fl64 (fl64 (15 / 100) * price)

/-- The rounded sum `item.getPrice() + tax` of `ChefBot::order`. -/
def orderTotal (price : ℚ) : ℚ := fl64 (price + orderTax price)

/-- The block `ChefBot::order` writes to `order_history.txt` (through a fresh
`ofstream`, hence with the default number format). -/
def orderRecord (selected : Restaurant) (item : MenuItem) : Str :=
  "Restaurant: ".toList ++ selected.name ++ "\n".toList ++
  "Item: ".toList ++ item.name ++ "\n".toList ++
  "Price: Rs ".toList ++ showDouble Fmt.default item.price ++ "\n".toList ++
  "Tax: Rs ".toList ++ showDouble Fmt.default (orderTax item.price) ++ "\n".toList ++
  "Total: Rs ".toList ++ showDouble Fmt.default (orderTotal item.price) ++ "\n".toList ++
  "-----------------------------\n".toList

/-- The confirmed branch of `ChefBot::order`: bill and log. -/
def ChefBot.orderConfirmed (selected : Restaurant) (item : MenuItem) (w : World) : World :=
  let tax := orderTax item.price
  let w := w.print "\n ORDER CONFIRMED!\n".toList
  let w := (w.print (fill 25 '-')).print "\n".toList
  let w := w.print " BILL SUMMARY:\n".toList
  let w := (((((w.print "Item: ".toList).print item.name).print " - Rs ".toList).setFixed
    2).printNum item.price).print "\n".toList
  let w := ((w.print "Tax (15%): Rs ".toList).printNum tax).print "\n".toList
  let w := ((w.print "Total: Rs ".toList).printNum (orderTotal item.price)).print "\n".toList
  let w := (w.print (fill 25 '-')).print "\n".toList
  let w :=
    if w.orderHistory.canOpen then
      ({ w with orderHistory := w.orderHistory.append (orderRecord selected item) }).print
        " Order logged successfully.\n".toList
    else w.print " Warning: Could not log order to file.\n".toList
  w.print " Your order will be prepared shortly!\n".toList

/-- Method `ChefBot::order`. -/
def ChefBot.order (bot : ChefBot) (w : World) : World :=
  let w := w.print "\n ORDER PROCESS STARTED\n".toList
  let w := (w.print (fill 30 '-')).print "\n".toList
  let w := w.print "Which restaurant would you like to order from?\n".toList
  let w := w.print "Available: Cheezious, Ranchers, Howdy\n".toList
  let w := w.print "Enter restaurant name: ".toList
  let (restName, w) := getline w
  match bot.restaurants.find? (fun r => toLower r.name == toLower restName) with
  | none =>
    (((w.print " Restaurant '".toList).print restName).print "' not found.\n".toList).print
      "Available restaurants: Cheezious, Ranchers, Howdy\n".toList
  | some selected =>
    let w := selected.showDetails w
    let w := w.print "\nWhich category would you like to order from? ".toList
    let (category, w) := getline w
    let menu := selected.categorizedMenu
    match mapFind menu category with
    | none =>
      let w := ((w.print " Category '".toList).print category).print "' not found.\n".toList
      let w := w.print "Available categories: ".toList
      let w := menu.foldl (fun w cat => (w.print cat.1).print " ".toList) w
      w.print "\n".toList
    | some items =>
      let w := ((w.print "\n Available items in ".toList).print category).print ":\n".toList
      let w := items.foldl (fun w item => item.show w) w
      let w := w.print "\nEnter item name: ".toList
      let (itemName, w) := getline w
      match items.find? (fun item => toLower item.name == toLower itemName) with
      | some item =>
        let w := w.print "\n ORDER SUMMARY:\n".toList
        let w := ((w.print "Restaurant: ".toList).print selected.name).print "\n".toList
        let w := ((w.print "Item: ".toList).print item.name).print "\n".toList
        let w := ((w.print "Price: Rs ".toList).printNum item.price).print "\n".toList
        let w := w.print "\nConfirm order? (yes/no): ".toList
        let (confirm, w) := getline w
        if toLower confirm = "yes".toList ∨ toLower confirm = "y".toList then
          ChefBot.orderConfirmed selected item w
        else
          w.print " Order canceled.\n".toList
      | none =>
        ((((w.print " Item '".toList).print itemName).print "' not found in ".toList).print
          category).print ".\n".toList

/-- Loop state of `ChefBot::recommend` and `ChefBot::nearestBranch`: the world,
the per-restaurant flag (`restaurantHasItems` / `restaurantFound`) and `found`. -/
structure Scan where
  w : World
  headed : Bool
  found : Bool

/-- Body of the innermost loop of `ChefBot::recommend`, for one item. -/
def recommendItem (maxPrice : ℚ) (keyword : Str) (r : Restaurant) (category : Str)
    (s : Scan) (item : MenuItem) : Scan :=
  if item.price ≤ maxPrice then
    if keyword.isEmpty ∨ (find (toLower item.name) (toLower keyword)).isSome then
      let w := if !s.headed then ((s.w.print "\n ".toList).print r.name).print ":\n".toList
        else s.w
      let w := ((((((w.print "   • ".toList).print item.name).print " (".toList).print
        category).print ") - Rs ".toList).printNum item.price).print "\n".toList
      { w := w, headed := true, found := true }
    else s
  else s

/-- Body of the outer loop of `ChefBot::recommend`, for one restaurant: `found`
is carried along, `restaurantHasItems` starts out false. -/
def recommendRestaurant (maxPrice : ℚ) (keyword : Str) (s : World × Bool) (r : Restaurant) :
    World × Bool :=
  let menu := r.categorizedMenu
  let t := menu.foldl
    (fun t category => category.2.foldl (recommendItem maxPrice keyword r category.1) t)
    { w := s.1, headed := false, found := s.2 }
  (t.w, t.found)

/-- The part of `ChefBot::recommend` that follows the keyword prompt. -/
def ChefBot.recommendFor (bot : ChefBot) (keyword : Str) (w : World) : World :=
  let maxPrice : ℚ := 500
  let w := (w.print "\n RECOMMENDATIONS UNDER Rs ".toList).printNum maxPrice
  let w := if !keyword.isEmpty then
      ((w.print " (Keyword: ".toList).print keyword).print ")".toList
    else w
  let w := w.print ":\n".toList
  let w := (w.print (fill 50 '-')).print "\n".toList
  let (w, found) := bot.restaurants.foldl (recommendRestaurant maxPrice keyword) (w, false)
  if found then
    let w := (w.print (fill 50 '-')).print "\n".toList
    let w := w.print " Use 'order' command to place an order!\n".toList
    if w.recommendations.canOpen then
      let line := "Keyword: ".toList ++ keyword ++ ", MaxPrice: ".toList ++
        showDouble Fmt.default maxPrice ++ "\n".toList
      { w with recommendations := w.recommendations.append line }
    else w
  else
    let w := (w.print " No matching items found under Rs ".toList).printNum maxPrice
    let w := if !keyword.isEmpty then
        ((w.print " with keyword '".toList).print keyword).print "'".toList
      else w
    w.print ".\n".toList

/-- Method `ChefBot::recommend`: an empty keyword is replaced by a line read
from the user, then the recommendations are made. -/
def ChefBot.recommend (bot : ChefBot) (keyword : Str) (w : World) : World :=
  if keyword.isEmpty then
    let (keyword, w) := getline (w.print
      "Enter item keyword (burger, pizza, pasta, wrap, sandwich) or press Enter for all: ".toList)
    bot.recommendFor keyword w
  else bot.recommendFor keyword w

/-- Body of the inner loop of `ChefBot::nearestBranch`, for index `i`. -/
def nearestBranchAt (city : Str) (r : Restaurant) (s : Scan) (i : Nat) : Scan :=
  if (find (toLower (r.addresses.getD i [])) (toLower city)).isSome then
    let w := if !s.headed then ((s.w.print "\n ".toList).print r.name).print ":\n".toList
      else s.w
    let w := ((w.print "   • ".toList).print (r.branches.getD i [])).print " Branch\n".toList
    let w := ((w.print "     ".toList).print (r.addresses.getD i [])).print "\n".toList
    { w := w, headed := true, found := true }
  else s

/-- Method `ChefBot::nearestBranch`. -/
def ChefBot.nearestBranch (bot : ChefBot) (w : World) : World :=
  let w := w.print "\n BRANCH FINDER\n".toList
  let w := (w.print (fill 20 '-')).print "\n".toList
  let w := w.print "Enter city name (e.g., Islamabad, Lahore): ".toList
  let (city, w) := getline w
  let w := ((w.print "\n Branches in ".toList).print city).print ":\n".toList
  let w := (w.print (fill 30 '-')).print "\n".toList
  let (w, found) := bot.restaurants.foldl
    (fun (s : World × Bool) r =>
      let t := (List.range r.addresses.length).foldl (nearestBranchAt city r)
        { w := s.1, headed := false, found := s.2 }
      (t.w, t.found))
    (w, false)
  if !found then
    (((w.print " No branches found in '".toList).print city).print "'.\n".toList).print
      "Available cities: Islamabad, Lahore\n".toList
  else w

/-- Method `ChefBot::checkOpenStatus`. -/
def ChefBot.checkOpenStatus (bot : ChefBot) (restName : Str) (w : World) : World :=
  match bot.restaurants.find? (fun r => toLower r.name == toLower restName) with
  | some r =>
    let w := w.print "\n OPENING STATUS:\n".toList
    let w := (w.print (fill 20 '-')).print "\n".toList
    let (isOpen, w) := r.isOpenNow w
    if isOpen then
      ((w.print " ".toList).print r.name).print " is OPEN now! (12 PM - 11 PM)\n".toList
    else
      (((w.print " ".toList).print r.name).print " is CLOSED now.\n".toList).print
        "Opening hours: 12 PM - 11 PM\n".toList
  | none =>
    (((w.print " '".toList).print restName).print "' is not a recognized restaurant.\n".toList).print
      "Available restaurants: Cheezious, Ranchers, Howdy\n".toList

/-- What the `tell me about` branch of `ChefBot::handleInput` does. -/
inductive TellCall where
  /-- `showDetails` of every restaurant whose lower-cased name occurs in the input -/
  | details (lowerInput : Str)
  /-- `showByField(field)` -/
  | byField (field : Str)
  /-- `showAllInfo()` -/
  | allInfo
  /-- the text "I need more specific information" and the quick commands -/
  | moreInfo
  /-- no statement at all (the inner chain over the field names has no `else`) -/
  | nothing
deriving DecidableEq

/-- The branch of the `if` / `else if` chain of `ChefBot::handleInput` that is
executed, with the arguments it passes on: one constructor per branch, in the
order of the chain. -/
inductive Call where
  /-- `showHelp()` -/
  | help
  /-- `recommend(keyword)` -/
  | recommend (keyword : Str)
  /-- `order()` -/
  | order
  /-- `nearestBranch()` -/
  | branchFinder
  /-- `checkOpenStatus(name)`, or for `none` the request to name a restaurant -/
  | openStatus (target : Option Str)
  /-- the `tell me about` branch -/
  | tellMeAbout (sub : TellCall)
  /-- the final `else`: not understood -/
  | unrecognized (input : Str)
deriving DecidableEq

/-- The keyword extraction inside the recommend branch of `handleInput`. -/
def recommendKeyword (lowerInput : Str) : Str :=
  if found lowerInput "burger" then "burger".toList
  else if found lowerInput "pizza" then "pizza".toList
  else if found lowerInput "pasta" then "pasta".toList
  else if found lowerInput "wrap" then "wrap".toList
  else if found lowerInput "sandwich" then "sandwich".toList
  else []

/-- The restaurant selection inside the open-status branch of `handleInput`. -/
def openStatusTarget (lowerInput : Str) : Option Str :=
  if found lowerInput "cheezious" then some "cheezious".toList
  else if found lowerInput "ranchers" then some "ranchers".toList
  else if found lowerInput "howdy" then some "howdy".toList
  else none

/-- The body of the `tell me about` branch of `handleInput`. -/
def tellMeAbout (lowerInput : Str) : TellCall :=
  if found lowerInput "cheezious" ∨ found lowerInput "ranchers" ∨ found lowerInput "howdy" then
    TellCall.details lowerInput
  else if found lowerInput "name" ∨ found lowerInput "address" ∨ found lowerInput "menu" ∨
      found lowerInput "branches" ∨ found lowerInput "rating" ∨ found lowerInput "prices" then
    if found lowerInput "name" then TellCall.byField "name".toList
    else if found lowerInput "address" then TellCall.byField "address".toList
    else if found lowerInput "menu" then TellCall.byField "menu".toList
    else if found lowerInput "branches" then TellCall.byField "branches".toList
    else if found lowerInput "rating" then TellCall.byField "rating".toList
    else if found lowerInput "prices" then TellCall.byField "prices".toList
    else TellCall.nothing
  else if found lowerInput "restaurants" then TellCall.allInfo
  else TellCall.moreInfo

/-- The `if` / `else if` chain of `ChefBot::handleInput`: which handler is
called for an input line, and with what argument. -/
def dispatch (input : Str) : Call :=
  let lowerInput := toLower input
  if lowerInput = "help".toList ∨ lowerInput = "commands".toList ∨
      lowerInput = "what can you do".toList then
    Call.help
  else if found lowerInput "recommend" ∨
      (found lowerInput "tell me about" ∧ found lowerInput "under") then
    Call.recommend (recommendKeyword lowerInput)
  else if found lowerInput "order" ∨ found lowerInput "place order" then
    Call.order
  else if found lowerInput "nearest" ∨ found lowerInput "branch" ∨
      found lowerInput "find branches" then
    Call.branchFinder
  else if found lowerInput "open now" ∨ found lowerInput "open status" then
    Call.openStatus (openStatusTarget lowerInput)
  else if found lowerInput "tell me about" then
    Call.tellMeAbout (tellMeAbout lowerInput)
  else
    Call.unrecognized input

/-- Execution of the `tell me about` branch. -/
def TellCall.run (bot : ChefBot) : TellCall → World → World
  | TellCall.details lowerInput, w =>
    bot.restaurants.foldl
      (fun w r => if (find lowerInput (toLower r.name)).isSome then r.showDetails w else w) w
  | TellCall.byField field, w => bot.showByField field w
  | TellCall.allInfo, w => bot.showAllInfo w
  | TellCall.moreInfo, w =>
    bot.showQuickCommands (w.print " I need more specific information. Try:\n".toList)
  | TellCall.nothing, w => w

/-- Execution of the selected branch of `handleInput`. -/
def Call.run (bot : ChefBot) : Call → World → World
  | Call.help, w => bot.showHelp w
  | Call.recommend keyword, w => bot.recommend keyword w
  | Call.order, w => bot.order w
  | Call.branchFinder, w => bot.nearestBranch w
  | Call.openStatus (some restName), w => bot.checkOpenStatus restName w
  | Call.openStatus none, w =>
    ((w.print " Please specify which restaurant's opening status you want to check.\n".toList).print
      "Available: Cheezious, Ranchers, Howdy\n".toList).print
      "Example: 'cheezious open now'\n".toList
  | Call.tellMeAbout sub, w => sub.run bot w
  | Call.unrecognized input, w =>
    bot.showQuickCommands
      ((((w.print " Sorry, I don't understand '".toList).print input).print "'.\n".toList).print
        "Type 'help' to see all available commands.\n".toList)

/-- The first statement of `ChefBot::handleInput`: the line is appended to
`chat_log.txt` when that file can be opened. -/
def logChat (input : Str) (w : World) : World :=
  if w.chatLog.canOpen then
    { w with chatLog := w.chatLog.append ("User: ".toList ++ input ++ "\n".toList) }
  else w

/-- Method `ChefBot::handleInput`: chat log, then the selected branch. -/
def ChefBot.handleInput (bot : ChefBot) (input : Str) (w : World) : World :=
  (dispatch input).run bot (logChat input w)

/-! ## The specification's vocabulary -/

/-- The intents of the dispatcher, in order of precedence. -/
inductive Intent where
  | help
  | recommend
  | order
  | branchFinder
  | openStatus
  | tellMeAbout
  | unrecognized
deriving DecidableEq

/-- The intent a branch of `handleInput` stands for. -/
def Call.intent : Call → Intent
  | Call.help => Intent.help
  | Call.recommend _ => Intent.recommend
  | Call.order => Intent.order
  | Call.branchFinder => Intent.branchFinder
  | Call.openStatus _ => Intent.openStatus
  | Call.tellMeAbout _ => Intent.tellMeAbout
  | Call.unrecognized _ => Intent.unrecognized

/-- The line `l` contains the text `p` as a contiguous substring. -/
def hasSub (l : Str) (p : String) : Bool := decide (p.toList <:+: l)

/-- The line is one of the three help phrases. -/
def isHelpPhrase (l : Str) : Bool :=
  decide (l = "help".toList ∨ l = "commands".toList ∨ l = "what can you do".toList)

/-- Trigger of the recommend intent. -/
def isRecommendPhrase (l : Str) : Bool :=
  hasSub l "recommend" || (hasSub l "tell me about" && hasSub l "under")

/-- The precedence list of the dispatcher: each intent with its trigger on
the lower-cased line, highest precedence first. -/
def intentRules : List ((Str → Bool) × Intent) :=
  [ (isHelpPhrase, Intent.help),
    (isRecommendPhrase, Intent.recommend),
    (fun l => hasSub l "order", Intent.order),
    (fun l => hasSub l "nearest" || hasSub l "branch", Intent.branchFinder),
    (fun l => hasSub l "open now" || hasSub l "open status", Intent.openStatus),
    (fun l => hasSub l "tell me about", Intent.tellMeAbout) ]

/-- First-match-wins over the precedence list. -/
def firstMatch (l : Str) : Intent :=
  match intentRules.find? (fun rule => rule.1 l) with
  | some rule => rule.2
  | none => Intent.unrecognized

/-- The first of the given words that the line contains. -/
def firstContained (l : Str) (words : List String) : Option Str :=
  (words.find? (fun k => hasSub l k)).map String.toList

/-- An initial world for examples: nothing printed yet, default number format,
empty writable log files. -/
def World.initial (cin : List Str) (localHour : Option Nat) : World :=
  { cin := cin, cout := [], fmt := Fmt.default, localHour := localHour
    chatLog := { canOpen := true, text := [] }
    orderHistory := { canOpen := true, text := [] }
    recommendations := { canOpen := true, text := [] } }

/-- The item is to be recommended for the keyword: its price is at most 500 and
its name contains the keyword, letter case ignored. -/
def recommendable (keyword : Str) (item : MenuItem) : Bool :=
  decide (item.price ≤ 500) && decide (toLower keyword <:+: toLower item.name)

/-- The items of a restaurant to be recommended for the keyword, each with
its category: category by category, in the order of the category's item list. -/
def recommendedOf (keyword : Str) (r : Restaurant) : List (Str × MenuItem) :=
  r.categorizedMenu.flatMap
    (fun category => (category.2.filter (recommendable keyword)).map (fun item => (category.1, item)))

/-- Header line of a restaurant in a listing. -/
def groupHeader (r : Restaurant) : Str := "\n ".toList ++ r.name ++ ":\n".toList

/-- Line of a recommended item, its price shown in number format `f`. -/
def recommendLine (f : Fmt) (entry : Str × MenuItem) : Str :=
  "   • ".toList ++ entry.2.name ++ " (".toList ++ entry.1 ++ ") - Rs ".toList ++
    showDouble f entry.2.price ++ "\n".toList

/-- The listing of a recommendation: restaurant after restaurant, a header
followed by the lines of its recommended items, nothing for a restaurant with
no recommended item. -/
def recommendListing (f : Fmt) (keyword : Str) (restaurants : List Restaurant) : Str :=
  (restaurants.map (fun r =>
    if recommendedOf keyword r = [] then []
    else groupHeader r ++ ((recommendedOf keyword r).map (recommendLine f)).flatten)).flatten

/-- Whether any restaurant has an item to recommend. -/
def anyRecommended (keyword : Str) (restaurants : List Restaurant) : Bool :=
  restaurants.any (fun r => !(recommendedOf keyword r).isEmpty)

/-- Everything `recommend` prints once the keyword is settled: title, listing,
and the closing hint or the no-match message. -/
def recommendReport (f : Fmt) (keyword : Str) (restaurants : List Restaurant) : Str :=
  "\n RECOMMENDATIONS UNDER Rs ".toList ++ showDouble f 500 ++
    (if keyword = [] then [] else " (Keyword: ".toList ++ keyword ++ ")".toList) ++
    ":\n".toList ++ fill 50 '-' ++ "\n".toList ++
    recommendListing f keyword restaurants ++
    (if anyRecommended keyword restaurants = true then
      fill 50 '-' ++ "\n".toList ++ " Use 'order' command to place an order!\n".toList
    else
      " No matching items found under Rs ".toList ++ showDouble f 500 ++
        (if keyword = [] then [] else " with keyword '".toList ++ keyword ++ "'".toList) ++
        ".\n".toList)

/-- The prompt of `recommend` for a keyword. -/
def keywordPrompt : Str :=
  "Enter item keyword (burger, pizza, pasta, wrap, sandwich) or press Enter for all: ".toList

/-- The items of a restaurant that cost at most 500, each with its category:
category by category, in the order of the category's item list. -/
def cheapItems (r : Restaurant) : List (Str × MenuItem) :=
  r.categorizedMenu.flatMap
    (fun category => (category.2.filter (fun item => decide (item.price ≤ 500))).map
      (fun item => (category.1, item)))

/-- What one step of a listing loop does to its state when it has the lines
`lines` to print for the current restaurant: nothing if there are none, else
the header (unless printed before) and the lines, and both flags set. -/
def Scan.emit (s : Scan) (header : Str) (lines : List Str) : Scan :=
  if lines = [] then s
  else
    { w := s.w.print ((if s.headed = true then [] else header) ++ lines.flatten)
      headed := true
      found := true }

/-- The `i`-th line the user types from now on, counted from 0; empty once the
input is exhausted. -/
def World.answer (w : World) (i : Nat) : Str := w.cin.getD i []

/-- The world with the next `n` lines of input consumed. -/
def World.skip (w : World) (n : Nat) : World := { w with cin := w.cin.drop n }

/-- The bill of a confirmed order in exact arithmetic: price, 15 % of it as tax,
and their sum, each with two decimals. -/
def billLines (item : MenuItem) : Str :=
  "Item: ".toList ++ item.name ++ " - Rs ".toList ++
    showDouble { fixed := true, precision := 2 } item.price ++ "\n".toList ++
  "Tax (15%): Rs ".toList ++
    showDouble { fixed := true, precision := 2 } (15 / 100 * item.price) ++ "\n".toList ++
  "Total: Rs ".toList ++
    showDouble { fixed := true, precision := 2 } (item.price + 15 / 100 * item.price) ++
    "\n".toList

/-- The order-history block of a confirmed order in exact arithmetic. -/
def historyBlock (selected : Restaurant) (item : MenuItem) : Str :=
  "Restaurant: ".toList ++ selected.name ++ "\n".toList ++
  "Item: ".toList ++ item.name ++ "\n".toList ++
  "Price: Rs ".toList ++ showDouble Fmt.default item.price ++ "\n".toList ++
  "Tax: Rs ".toList ++ showDouble Fmt.default (15 / 100 * item.price) ++ "\n".toList ++
  "Total: Rs ".toList ++ showDouble Fmt.default (item.price + 15 / 100 * item.price) ++
    "\n".toList ++
  "-----------------------------\n".toList

/-- The (branch, address) pairs of a restaurant whose address contains the
city, letter case ignored, in the order of the branch list. -/
def branchesIn (city : Str) (r : Restaurant) : List (Str × Str) :=
  (r.branches.zip r.addresses).filter (fun p => decide (toLower city <:+: toLower p.2))

/-- The two lines of the branch finder for one (branch, address) pair. -/
def branchLine (p : Str × Str) : Str :=
  "   • ".toList ++ p.1 ++ " Branch\n".toList ++ "     ".toList ++ p.2 ++ "\n".toList

/-- The listing of the branch finder: restaurant after restaurant, a header
followed by the lines of its branches in the city, nothing for a restaurant
with no branch there. -/
def branchListing (city : Str) (restaurants : List Restaurant) : Str :=
  (restaurants.map (fun r =>
    if branchesIn city r = [] then []
    else groupHeader r ++ ((branchesIn city r).map branchLine).flatten)).flatten

/-- Whether any restaurant has a branch in the city. -/
def anyBranchIn (city : Str) (restaurants : List Restaurant) : Bool :=
  restaurants.any (fun r => !(branchesIn city r).isEmpty)

/-- Everything the branch finder prints for a city: title, prompt, heading,
listing, and the not-found message when no restaurant has a branch there. -/
def branchReport (city : Str) (restaurants : List Restaurant) : Str :=
  "\n BRANCH FINDER\n".toList ++ fill 20 '-' ++ "\n".toList ++
    "Enter city name (e.g., Islamabad, Lahore): ".toList ++
    "\n Branches in ".toList ++ city ++ ":\n".toList ++ fill 30 '-' ++ "\n".toList ++
    branchListing city restaurants ++
    (if anyBranchIn city restaurants = true then []
    else
      " No branches found in '".toList ++ city ++ "'.\n".toList ++
        "Available cities: Islamabad, Lahore\n".toList)

/-- The text a handler adds to `cout` when run in world `w`. -/
def printedBy (handler : World → World) (w : World) : Str :=
  (handler w).cout.drop w.cout.length

/-- The world after the command "order" answered with "Cheezious", "Burgers",
"Zinger Burger", "yes", starting from the initial world. -/
def afterZingerOrder : World :=
  ChefBot.new.handleInput "order".toList
    (World.initial ["Cheezious".toList, "Burgers".toList, "Zinger Burger".toList, "yes".toList]
      none)

/-- The keys of a map, in the order a range-for visits the entries. -/
def mapKeys (m : MenuMap) : List Str := m.map Prod.fst

/-- The keys of the map are strictly ascending in the order of `operator<`. -/
def keysAscending (m : MenuMap) : Prop :=
  (mapKeys m).Pairwise (fun a b => strLt a b = true)

/-- Line of a menu item as `MenuItem::show` prints it, the price in number
format `f`. -/
def itemLine (f : Fmt) (item : MenuItem) : Str :=
  "   - ".toList ++ item.name ++ ": Rs ".toList ++ showDouble f item.price ++ "\n".toList

/-- The menu of a restaurant as text: each category name followed by the
lines of its items. -/
def menuText (f : Fmt) (r : Restaurant) : Str :=
  (r.categorizedMenu.map (fun category =>
    "  ".toList ++ category.1 ++ ":\n".toList ++ (category.2.map (itemLine f)).flatten)).flatten

/-- What show-by-field prints for a field when numbers are shown in format
`f`: the listing of the names, the ratings, the menus or the addresses of all
restaurants, or the apology for any other field. -/
def fieldText (bot : ChefBot) (field : Str) (f : Fmt) : Str :=
  "\n".toList ++
    (if field = "name".toList then
      " RESTAURANT NAMES:\n".toList ++
        (bot.restaurants.map (fun r => "   • ".toList ++ r.name ++ "\n".toList)).flatten
    else if field = "rating".toList then
      " RESTAURANT RATINGS:\n".toList ++
        (bot.restaurants.map (fun r =>
          "   • ".toList ++ r.name ++ ": ".toList ++ showDouble f r.rating ++
            "/5\n".toList)).flatten
    else if field = "menu".toList ∨ field = "prices".toList then
      " ALL RESTAURANT MENUS:\n".toList ++
        (bot.restaurants.map (fun r =>
          "\n".toList ++ r.name ++ ":\n".toList ++ menuText f r)).flatten
    else if field = "address".toList ∨ field = "branches".toList then
      " RESTAURANT ADDRESSES:\n".toList ++
        (bot.restaurants.map (fun r =>
          "\n".toList ++ r.name ++ ":\n".toList ++
            (r.addresses.map (fun a => "   • ".toList ++ a ++ "\n".toList)).flatten)).flatten
    else
      " Sorry, I don't understand that field.\n".toList ++
        "Try: names, ratings, menu, addresses, or branches\n".toList)

/-! ## Substring search -/

theorem find_isSome_iff_occurs (s pat : Str) : (find s pat).isSome = true ↔ pat <:+: s := by
  induction s with
  | nil =>
    unfold find
    cases pat <;> simp [List.isPrefixOf]
  | cons a t ih =>
    unfold find
    rw [List.infix_cons_iff]
    by_cases h : pat.isPrefixOf (a :: t) = true
    · simp [h, List.isPrefixOf_iff_prefix.1 h]
    · have h2 : ¬ pat <+: a :: t := fun hp => h (List.isPrefixOf_iff_prefix.2 hp)
      simp [h, h2, ih]

theorem found_eq_hasSub (s : Str) (pat : String) : found s pat = hasSub s pat := by
  unfold found hasSub
  rw [Bool.eq_iff_iff, decide_eq_true_iff]
  exact find_isSome_iff_occurs s pat.toList

theorem hasSub_mono (s : Str) (p q : String) (hpq : hasSub q.toList p = true)
    (hq : hasSub s q = true) : hasSub s p = true := by
  unfold hasSub at *
  simp only [decide_eq_true_eq] at *
  exact hpq.trans hq

theorem hasSub_place_order (l : Str) :
    (hasSub l "order" = true ∨ hasSub l "place order" = true) ↔ hasSub l "order" = true :=
  ⟨fun h => h.elim id (hasSub_mono l "order" "place order" (by decide)), Or.inl⟩

theorem hasSub_find_branches (l : Str) :
    (hasSub l "nearest" = true ∨ hasSub l "branch" = true ∨ hasSub l "find branches" = true) ↔
      (hasSub l "nearest" || hasSub l "branch") = true := by
  rw [Bool.or_eq_true]
  constructor
  · rintro (h | h | h)
    · exact Or.inl h
    · exact Or.inr h
    · exact Or.inr (hasSub_mono l "branch" "find branches" (by decide) h)
  · rintro (h | h)
    · exact Or.inl h
    · exact Or.inr (Or.inl h)

/-! ## The dispatcher -/

/-- The chain of `handleInput`, its conditions written with the triggers of the
precedence list. -/
theorem dispatch_eq (input : Str) :
    dispatch input =
      if isHelpPhrase (toLower input) = true then Call.help
      else if isRecommendPhrase (toLower input) = true then
        Call.recommend (recommendKeyword (toLower input))
      else if hasSub (toLower input) "order" = true then Call.order
      else if (hasSub (toLower input) "nearest" || hasSub (toLower input) "branch") = true then
        Call.branchFinder
      else if (hasSub (toLower input) "open now" || hasSub (toLower input) "open status") = true
        then Call.openStatus (openStatusTarget (toLower input))
      else if hasSub (toLower input) "tell me about" = true then
        Call.tellMeAbout (tellMeAbout (toLower input))
      else Call.unrecognized input := by
  unfold dispatch
  simp only [found_eq_hasSub, hasSub_place_order, hasSub_find_branches]
  simp only [isHelpPhrase, isRecommendPhrase, decide_eq_true_eq, Bool.or_eq_true,
    Bool.and_eq_true]

theorem recommendKeyword_eq (l : Str) :
    recommendKeyword l =
      (firstContained l ["burger", "pizza", "pasta", "wrap", "sandwich"]).getD [] := by
  unfold recommendKeyword firstContained
  simp only [found_eq_hasSub, List.find?]
  cases hasSub l "burger" <;> cases hasSub l "pizza" <;> cases hasSub l "pasta" <;>
    cases hasSub l "wrap" <;> cases hasSub l "sandwich" <;> rfl

theorem openStatusTarget_eq (l : Str) :
    openStatusTarget l = firstContained l ["cheezious", "ranchers", "howdy"] := by
  unfold openStatusTarget firstContained
  simp only [found_eq_hasSub, List.find?]
  cases hasSub l "cheezious" <;> cases hasSub l "ranchers" <;> cases hasSub l "howdy" <;> rfl

theorem tellMeAbout_eq_of_no_name (l : Str) (hc : hasSub l "cheezious" = false)
    (hr : hasSub l "ranchers" = false) (hh : hasSub l "howdy" = false) :
    tellMeAbout l =
      match firstContained l ["name", "address", "menu", "branches", "rating", "prices"] with
      | some field => TellCall.byField field
      | none => if hasSub l "restaurants" = true then TellCall.allInfo else TellCall.moreInfo := by
  unfold tellMeAbout firstContained
  simp only [found_eq_hasSub, List.find?, hc, hr, hh]
  cases hasSub l "name" <;> cases hasSub l "address" <;> cases hasSub l "menu" <;>
    cases hasSub l "branches" <;> cases hasSub l "rating" <;> cases hasSub l "prices" <;> simp

theorem openStatus_run (bot : ChefBot) (target : Option Str) (w : World) :
    (Call.openStatus target).run bot w =
      match target with
      | some name => bot.checkOpenStatus name w
      | none =>
        ((w.print " Please specify which restaurant's opening status you want to check.\n".toList).print
          "Available: Cheezious, Ranchers, Howdy\n".toList).print
          "Example: 'cheezious open now'\n".toList := by
  cases target <;> rfl

theorem tellMeAbout_run (bot : ChefBot) (l : Str) (w : World) :
    (tellMeAbout l).run bot w =
      if (hasSub l "cheezious" || hasSub l "ranchers" || hasSub l "howdy") = true then
        bot.restaurants.foldl
          (fun w r => if toLower r.name <:+: l then r.showDetails w else w) w
      else
        match firstContained l ["name", "address", "menu", "branches", "rating", "prices"] with
        | some field => bot.showByField field w
        | none =>
          if hasSub l "restaurants" = true then bot.showAllInfo w
          else bot.showQuickCommands (w.print " I need more specific information. Try:\n".toList) := by
  by_cases hn : (hasSub l "cheezious" || hasSub l "ranchers" || hasSub l "howdy") = true
  · have ht : tellMeAbout l = TellCall.details l := by
      unfold tellMeAbout
      simp only [found_eq_hasSub]
      simp only [Bool.or_eq_true] at hn
      rw [if_pos (by tauto)]
    rw [ht, if_pos hn]
    simp only [TellCall.run, find_isSome_iff_occurs]
  · simp only [Bool.or_eq_true, not_or, Bool.not_eq_true] at hn
    rw [tellMeAbout_eq_of_no_name l hn.1.1 hn.1.2 hn.2]
    simp only [hn.1.1, hn.1.2, hn.2, Bool.or_self, Bool.false_eq_true, if_false]
    cases firstContained l ["name", "address", "menu", "branches", "rating", "prices"]
    · by_cases hr : hasSub l "restaurants" = true
      · simp only [hr, if_true]
        rfl
      · simp only [hr, if_false]
        rfl
    · rfl

/-- C1. Every input line makes `handleInput` run exactly one handler (after the
line is logged), the one of the first entry of the precedence list (help,
recommend, order, branch-finder, open-status, tell-me-about) whose trigger holds
of the lower-cased line: `showHelp`; `recommend` with the extracted keyword;
`order`; `nearestBranch`; `checkOpenStatus` of the named restaurant or the
request to name one; within tell-me-about `showDetails` of the named
restaurants, else `showByField`, else `showAllInfo`, else the request for more
information; and the not-understood message with the quick commands if no
trigger holds.  In particular a line that contains both "order" and "branch" and
is neither a help phrase nor a recommend request runs `order`. -/
theorem handleInput_first_match_wins (bot : ChefBot) (input : Str) (w : World) :
    (dispatch input).intent = firstMatch (toLower input) ∧
    bot.handleInput input w =
      (match firstMatch (toLower input) with
      | Intent.help => bot.showHelp (logChat input w)
      | Intent.recommend =>
        bot.recommend
          ((firstContained (toLower input)
            ["burger", "pizza", "pasta", "wrap", "sandwich"]).getD [])
          (logChat input w)
      | Intent.order => bot.order (logChat input w)
      | Intent.branchFinder => bot.nearestBranch (logChat input w)
      | Intent.openStatus =>
        match firstContained (toLower input) ["cheezious", "ranchers", "howdy"] with
        | some name => bot.checkOpenStatus name (logChat input w)
        | none =>
          (((logChat input w).print
            " Please specify which restaurant's opening status you want to check.\n".toList).print
            "Available: Cheezious, Ranchers, Howdy\n".toList).print
            "Example: 'cheezious open now'\n".toList
      | Intent.tellMeAbout =>
        if (hasSub (toLower input) "cheezious" || hasSub (toLower input) "ranchers" ||
            hasSub (toLower input) "howdy") = true then
          bot.restaurants.foldl
            (fun w r => if toLower r.name <:+: toLower input then r.showDetails w else w)
            (logChat input w)
        else
          match firstContained (toLower input)
            ["name", "address", "menu", "branches", "rating", "prices"] with
          | some field => bot.showByField field (logChat input w)
          | none =>
            if hasSub (toLower input) "restaurants" = true then
              bot.showAllInfo (logChat input w)
            else
              bot.showQuickCommands
                ((logChat input w).print " I need more specific information. Try:\n".toList)
      | Intent.unrecognized =>
        bot.showQuickCommands
          (((((logChat input w).print " Sorry, I don't understand '".toList).print input).print
            "'.\n".toList).print "Type 'help' to see all available commands.\n".toList)) ∧
    (hasSub (toLower input) "order" = true ∧ hasSub (toLower input) "branch" = true ∧
      isHelpPhrase (toLower input) = false ∧ isRecommendPhrase (toLower input) = false →
      dispatch input = Call.order ∧ bot.handleInput input w = bot.order (logChat input w)) := by
  refine ⟨?_, ?_, ?_⟩
  · rw [dispatch_eq]
    unfold firstMatch intentRules
    simp only [List.find?]
    generalize isHelpPhrase (toLower input) = a
    generalize isRecommendPhrase (toLower input) = b
    generalize hasSub (toLower input) "order" = c
    generalize (hasSub (toLower input) "nearest" || hasSub (toLower input) "branch") = d
    generalize (hasSub (toLower input) "open now" || hasSub (toLower input) "open status") = e
    generalize hasSub (toLower input) "tell me about" = f
    cases a <;> cases b <;> cases c <;> cases d <;> cases e <;> cases f <;> rfl
  · unfold ChefBot.handleInput
    rw [dispatch_eq, recommendKeyword_eq, openStatusTarget_eq]
    unfold firstMatch intentRules
    simp only [List.find?]
    generalize isHelpPhrase (toLower input) = a
    generalize isRecommendPhrase (toLower input) = b
    generalize hasSub (toLower input) "order" = c
    generalize (hasSub (toLower input) "nearest" || hasSub (toLower input) "branch") = d
    generalize (hasSub (toLower input) "open now" || hasSub (toLower input) "open status") = e
    generalize hasSub (toLower input) "tell me about" = f
    cases a <;> cases b <;> cases c <;> cases d <;> cases e <;> cases f <;>
      first
      | rfl
      | exact openStatus_run bot _ _
      | exact tellMeAbout_run bot _ _
  · rintro ⟨ho, _, hh, hr⟩
    have hd : dispatch input = Call.order := by
      rw [dispatch_eq]
      simp [ho, hh, hr]
    refine ⟨hd, ?_⟩
    unfold ChefBot.handleInput
    rw [hd]
    rfl

/-- C1 at the line "Order from the nearest BRANCH": it contains "order",
"nearest" and "branch", and `handleInput` runs `order`. -/
theorem handleInput_first_match_wins_witness :
    ChefBot.new.handleInput "Order from the nearest BRANCH".toList (World.initial [] none) =
      ChefBot.new.order (logChat "Order from the nearest BRANCH".toList (World.initial [] none)) ∧
    firstMatch (toLower "Order from the nearest BRANCH".toList) = Intent.order :=
  have h := handleInput_first_match_wins ChefBot.new "Order from the nearest BRANCH".toList
    (World.initial [] none)
  have hd := h.2.2 ⟨by decide, by decide, by decide, by decide⟩
  ⟨hd.2, by rw [← h.1, hd.1]; rfl⟩

/-- C2. A line that is no help phrase and triggers recommend (contains
"recommend", or both "tell me about" and "under") makes `handleInput` call
`recommend` once, with the first of burger, pizza, pasta, wrap, sandwich that
the lower-cased line contains as keyword, and with the empty keyword if it
contains none; the tell-me-about branch is not taken. -/
theorem handleInput_recommend (bot : ChefBot) (input : Str) (w : World)
    (hhelp : isHelpPhrase (toLower input) = false)
    (hrec : isRecommendPhrase (toLower input) = true) :
    dispatch input = Call.recommend
      ((firstContained (toLower input) ["burger", "pizza", "pasta", "wrap", "sandwich"]).getD [])
    ∧ bot.handleInput input w = bot.recommend
      ((firstContained (toLower input) ["burger", "pizza", "pasta", "wrap", "sandwich"]).getD [])
      (logChat input w)
    ∧ (dispatch input).intent ≠ Intent.tellMeAbout := by
  have hd : dispatch input = Call.recommend
      ((firstContained (toLower input) ["burger", "pizza", "pasta", "wrap", "sandwich"]).getD
        []) := by
    rw [dispatch_eq, recommendKeyword_eq]
    simp [hhelp, hrec]
  refine ⟨hd, ?_, ?_⟩
  · unfold ChefBot.handleInput
    rw [hd]
    rfl
  · rw [hd]
    simp [Call.intent]

/-- C2 at "recommend a burger under 500": recommend is called with keyword
"burger". -/
theorem handleInput_recommend_witness :
    dispatch "recommend a burger under 500".toList = Call.recommend "burger".toList ∧
    (dispatch "recommend a burger under 500".toList).intent ≠ Intent.tellMeAbout :=
  have h := handleInput_recommend ChefBot.new "recommend a burger under 500".toList
    (World.initial [] none) (by decide) (by decide)
  ⟨h.1.trans (by decide), h.2.2⟩

/-- C3. A line that triggers none of help, recommend, order, branch-finder and
contains "open now" or "open status" is dispatched to open-status, never to
tell-me-about: `checkOpenStatus` is called for the first of cheezious, ranchers,
howdy that the line contains, and if it contains none only the request to name a
restaurant is printed. -/
theorem handleInput_open_status (bot : ChefBot) (input : Str) (w : World)
    (hhelp : isHelpPhrase (toLower input) = false)
    (hrec : isRecommendPhrase (toLower input) = false)
    (hord : hasSub (toLower input) "order" = false)
    (hbr : (hasSub (toLower input) "nearest" || hasSub (toLower input) "branch") = false)
    (hopen : (hasSub (toLower input) "open now" || hasSub (toLower input) "open status") = true) :
    dispatch input =
      Call.openStatus (firstContained (toLower input) ["cheezious", "ranchers", "howdy"])
    ∧ (dispatch input).intent ≠ Intent.tellMeAbout
    ∧ (∀ name, firstContained (toLower input) ["cheezious", "ranchers", "howdy"] = some name →
        bot.handleInput input w = bot.checkOpenStatus name (logChat input w))
    ∧ (firstContained (toLower input) ["cheezious", "ranchers", "howdy"] = none →
        bot.handleInput input w =
          (((logChat input w).print
            " Please specify which restaurant's opening status you want to check.\n".toList).print
            "Available: Cheezious, Ranchers, Howdy\n".toList).print
            "Example: 'cheezious open now'\n".toList) := by
  have hd : dispatch input =
      Call.openStatus (firstContained (toLower input) ["cheezious", "ranchers", "howdy"]) := by
    rw [dispatch_eq, openStatusTarget_eq]
    simp only [hhelp, hrec, hord, hbr, hopen]
    simp
  refine ⟨hd, ?_, ?_, ?_⟩
  · rw [hd]
    simp [Call.intent]
  · intro name hn
    unfold ChefBot.handleInput
    rw [hd, hn]
    rfl
  · intro hn
    unfold ChefBot.handleInput
    rw [hd, hn]
    rfl

/-- C3 at "tell me about cheezious open now": the open status of Cheezious is
checked (here at 1 PM), the tell-me-about branch is not taken. -/
theorem handleInput_open_status_witness :
    dispatch "tell me about cheezious open now".toList =
      Call.openStatus (some "cheezious".toList) ∧
    (ChefBot.new.handleInput "tell me about cheezious open now".toList
      (World.initial [] (some 13))).cout =
      ("\n OPENING STATUS:\n--------------------\n" ++
        " Cheezious is OPEN now! (12 PM - 11 PM)\n").toList :=
  have h := handleInput_open_status ChefBot.new "tell me about cheezious open now".toList
    (World.initial [] (some 13)) (by decide) (by decide) (by decide) (by decide) (by decide)
  ⟨h.1.trans (by decide), by rw [h.2.2.1 "cheezious".toList (by decide)]; decide⟩

/-- C4. In the tell-me-about branch (no trigger of higher precedence holds, the
line contains "tell me about") and with none of the three restaurant names in
the line: if the line contains a field keyword, `showByField` is called once,
for the first keyword it contains in the order name, address, menu, branches,
rating, prices; otherwise `showAllInfo` is called if the line contains
"restaurants", and otherwise the request for more specific information is
printed. -/
theorem handleInput_tell_me_about_field (bot : ChefBot) (input : Str) (w : World)
    (hhelp : isHelpPhrase (toLower input) = false)
    (hrec : isRecommendPhrase (toLower input) = false)
    (hord : hasSub (toLower input) "order" = false)
    (hbr : (hasSub (toLower input) "nearest" || hasSub (toLower input) "branch") = false)
    (hopen : (hasSub (toLower input) "open now" || hasSub (toLower input) "open status") = false)
    (htell : hasSub (toLower input) "tell me about" = true)
    (hc : hasSub (toLower input) "cheezious" = false)
    (hr : hasSub (toLower input) "ranchers" = false)
    (hh : hasSub (toLower input) "howdy" = false) :
    bot.handleInput input w =
      match firstContained (toLower input)
        ["name", "address", "menu", "branches", "rating", "prices"] with
      | some field => bot.showByField field (logChat input w)
      | none =>
        if hasSub (toLower input) "restaurants" = true then bot.showAllInfo (logChat input w)
        else bot.showQuickCommands
          ((logChat input w).print " I need more specific information. Try:\n".toList) := by
  have hd : dispatch input = Call.tellMeAbout (tellMeAbout (toLower input)) := by
    rw [dispatch_eq]
    simp only [hhelp, hrec, hord, hbr, hopen, htell]
    simp
  unfold ChefBot.handleInput
  rw [hd, tellMeAbout_eq_of_no_name _ hc hr hh]
  cases firstContained (toLower input) ["name", "address", "menu", "branches", "rating", "prices"]
  · by_cases hrest : hasSub (toLower input) "restaurants" = true
    · simp only [hrest, if_true]
      rfl
    · simp only [hrest, if_false]
      rfl
  · rfl

/-- C4 at "Tell me about prices and the menu": of the two field keywords the
line contains, "menu" comes first in the order of the checks, and `showByField`
runs once, for "menu". -/
theorem handleInput_tell_me_about_field_witness :
    ChefBot.new.handleInput "Tell me about prices and the menu".toList (World.initial [] none) =
      ChefBot.new.showByField "menu".toList
        (logChat "Tell me about prices and the menu".toList (World.initial [] none)) :=
  (handleInput_tell_me_about_field ChefBot.new "Tell me about prices and the menu".toList
    (World.initial [] none) (by decide) (by decide) (by decide) (by decide) (by decide)
    (by decide) (by decide) (by decide) (by decide)).trans (by
      have : firstContained (toLower "Tell me about prices and the menu".toList)
          ["name", "address", "menu", "branches", "rating", "prices"] = some "menu".toList := by
        decide
      rw [this])

/-! ## Printing -/

@[simp] theorem print_cout (w : World) (s : Str) : (w.print s).cout = w.cout ++ s := rfl

@[simp] theorem print_cin (w : World) (s : Str) : (w.print s).cin = w.cin := rfl

@[simp] theorem print_fmt (w : World) (s : Str) : (w.print s).fmt = w.fmt := rfl

@[simp] theorem print_localHour (w : World) (s : Str) : (w.print s).localHour = w.localHour := rfl

@[simp] theorem print_chatLog (w : World) (s : Str) : (w.print s).chatLog = w.chatLog := rfl

@[simp] theorem print_orderHistory (w : World) (s : Str) :
    (w.print s).orderHistory = w.orderHistory := rfl

@[simp] theorem print_recommendations (w : World) (s : Str) :
    (w.print s).recommendations = w.recommendations := rfl

@[simp] theorem print_print (w : World) (s t : Str) : (w.print s).print t = w.print (s ++ t) := by
  simp [World.print, List.append_assoc]

@[simp] theorem print_nil (w : World) : w.print [] = w := by
  simp [World.print]

theorem printNum_eq (w : World) (x : ℚ) : w.printNum x = w.print (showDouble w.fmt x) := rfl

theorem getline_eq (w : World) : getline w = (w.cin.headD [], { w with cin := w.cin.tail }) := by
  unfold getline
  cases h : w.cin with
  | nil =>
    cases w
    simp_all
  | cons l ls => simp

theorem getline_print (w : World) (s : Str) :
    getline (w.print s) = ((getline w).1, (getline w).2.print s) := by
  simp [getline_eq, World.print]

/-! ## Listing loops -/

@[simp] theorem emit_nil (s : Scan) (header : Str) : s.emit header [] = s := by
  simp [Scan.emit]

@[simp] theorem emit_fmt (s : Scan) (header : Str) (lines : List Str) :
    (s.emit header lines).w.fmt = s.w.fmt := by
  unfold Scan.emit
  split <;> simp

theorem emit_emit (s : Scan) (header : Str) (l1 l2 : List Str) :
    (s.emit header l1).emit header l2 = s.emit header (l1 ++ l2) := by
  unfold Scan.emit
  by_cases h1 : l1 = []
  · simp [h1]
  · by_cases h2 : l2 = []
    · simp [h1, h2]
    · simp [h1, h2, List.append_assoc]

theorem recommendItem_eq (keyword : Str) (r : Restaurant) (category : Str) (s : Scan)
    (item : MenuItem) :
    recommendItem 500 keyword r category s item =
      s.emit (groupHeader r)
        (([item].filter (recommendable keyword)).map
          (fun i => recommendLine s.w.fmt (category, i))) := by
  have hk : (keyword.isEmpty = true ∨ (find (toLower item.name) (toLower keyword)).isSome = true) ↔
      toLower keyword <:+: toLower item.name := by
    rw [find_isSome_iff_occurs]
    constructor
    · rintro (h | h)
      · have : keyword = [] := by simpa using h
        subst this
        exact List.nil_infix
      · exact h
    · exact Or.inr
  unfold recommendItem recommendable
  by_cases hp : item.price ≤ 500
  · by_cases hs : toLower keyword <:+: toLower item.name
    · have hd := hk.2 hs
      simp only [hp, hd, if_true]
      cases hh : s.headed <;>
        simp [hp, hs, hh, Scan.emit, groupHeader, recommendLine, printNum_eq, List.append_assoc]
    · have hd : ¬ (keyword.isEmpty = true ∨
          (find (toLower item.name) (toLower keyword)).isSome = true) := fun h => hs (hk.1 h)
      simp only [hp, hd, if_true, if_false]
      simp [hp, hs]
  · simp [hp]

theorem foldl_recommendItem (keyword : Str) (r : Restaurant) (category : Str)
    (items : List MenuItem) (s : Scan) :
    items.foldl (recommendItem 500 keyword r category) s =
      s.emit (groupHeader r)
        ((items.filter (recommendable keyword)).map
          (fun i => recommendLine s.w.fmt (category, i))) := by
  induction items generalizing s with
  | nil => simp
  | cons item rest ih =>
    rw [List.foldl_cons, ih, recommendItem_eq, emit_fmt, emit_emit]
    congr 1
    by_cases h : recommendable keyword item = true <;> simp [List.filter_cons, h]

theorem foldl_recommendCategory (keyword : Str) (r : Restaurant) (menu : MenuMap) (s : Scan) :
    menu.foldl
        (fun t category => category.2.foldl (recommendItem 500 keyword r category.1) t) s =
      s.emit (groupHeader r)
        ((menu.flatMap (fun category =>
          (category.2.filter (recommendable keyword)).map (fun item => (category.1, item)))).map
          (recommendLine s.w.fmt)) := by
  induction menu generalizing s with
  | nil => simp
  | cons c rest ih =>
    rw [List.foldl_cons, ih, foldl_recommendItem, emit_fmt, emit_emit]
    simp [List.flatMap_cons, List.map_append, List.map_map, Function.comp_def]

theorem recommendRestaurant_eq (keyword : Str) (w : World) (found : Bool) (r : Restaurant) :
    recommendRestaurant 500 keyword (w, found) r =
      (w.print (recommendListing w.fmt keyword [r]),
        found || anyRecommended keyword [r]) := by
  unfold recommendRestaurant
  simp only [foldl_recommendCategory]
  unfold Scan.emit recommendListing anyRecommended
  change _ = (w.print ([if recommendedOf keyword r = [] then [] else _].flatten), _)
  by_cases h : recommendedOf keyword r = []
  · have h2 : List.flatMap r.categorizedMenu (fun category =>
        (category.2.filter (recommendable keyword)).map (fun item => (category.1, item))) = [] := h
    simp [h, h2]
  · have h2 : ¬ List.flatMap r.categorizedMenu (fun category =>
        (category.2.filter (recommendable keyword)).map (fun item => (category.1, item))) = [] := h
    simp [h, h2, recommendedOf]

theorem foldl_recommendRestaurant (keyword : Str) (rs : List Restaurant) (w : World)
    (found : Bool) :
    rs.foldl (recommendRestaurant 500 keyword) (w, found) =
      (w.print (recommendListing w.fmt keyword rs), found || anyRecommended keyword rs) := by
  induction rs generalizing w found with
  | nil => simp [recommendListing, anyRecommended]
  | cons r rest ih =>
    rw [List.foldl_cons, recommendRestaurant_eq, ih]
    simp [recommendListing, anyRecommended, Bool.or_assoc]

theorem showDouble_default_500 : showDouble Fmt.default 500 = "500".toList := by decide!

theorem isEmpty_eq_true_iff (k : Str) : k.isEmpty = true ↔ k = [] := by
  cases k <;> simp

/-- The world after the main part of `recommend`, in closed form. -/
theorem recommendFor_world (bot : ChefBot) (keyword : Str) (w : World) :
    bot.recommendFor keyword w =
      (if anyRecommended keyword bot.restaurants = true ∧ w.recommendations.canOpen = true then
        { w.print (recommendReport w.fmt keyword bot.restaurants) with
          recommendations := w.recommendations.append
            ("Keyword: ".toList ++ keyword ++ ", MaxPrice: ".toList ++ "500".toList ++
              "\n".toList) }
      else w.print (recommendReport w.fmt keyword bot.restaurants)) := by
  unfold ChefBot.recommendFor recommendReport
  have hne : (!keyword.isEmpty) = true ↔ ¬ keyword = [] := by
    cases keyword <;> simp
  simp only [hne, printNum_eq, print_print, print_fmt, foldl_recommendRestaurant,
    Bool.false_or, showDouble_default_500]
  by_cases hk : keyword = [] <;> cases ha : anyRecommended keyword bot.restaurants <;>
    cases hc : w.recommendations.canOpen <;>
    simp only [hk, not_true_eq_false, not_false_eq_true, if_true, if_false, and_self, and_true,
      true_and, and_false, false_and, Bool.false_eq_true, print_recommendations, print_print,
      print_fmt, printNum_eq, hc, List.append_assoc, List.append_nil, List.nil_append]

theorem recommend_world (bot : ChefBot) (keyword : Str) (w : World) :
    bot.recommend keyword w =
      if keyword = [] then
        bot.recommendFor (w.cin.headD []) ({ w with cin := w.cin.tail }.print keywordPrompt)
      else bot.recommendFor keyword w := by
  unfold ChefBot.recommend
  simp only [isEmpty_eq_true_iff, getline_print, getline_eq]
  rfl
theorem recommendable_nil (item : MenuItem) :
    recommendable [] item = decide (item.price ≤ 500) := by
  simp [recommendable, toLower]

theorem recommendedOf_nil (r : Restaurant) : recommendedOf [] r = cheapItems r := by
  unfold recommendedOf cheapItems
  rw [show recommendable [] = fun item => decide (item.price ≤ 500) from funext recommendable_nil]

/-! ## Recommendations -/

/-- C5, as amended.  Let the keyword in effect be the argument of `recommend`
if that is not empty, and otherwise the line read at the prompt.  Then what
`recommend` prints over the built-in catalog is (after the prompt, if any) the
report for the keyword in effect: the title, then restaurant by restaurant
exactly the items whose price is at most 500 and whose name contains the keyword
(letter case ignored), then the closing hint or the no-match message.  For the
keyword "burger" the items are Zinger Burger (450) of Cheezious and Beef Burger
(480) of Ranchers, and no others. -/
theorem recommend_lists_recommendable (keyword : Str) (w : World) :
    (ChefBot.new.recommend keyword w).cout =
      w.cout ++ (if keyword = [] then keywordPrompt else []) ++
        recommendReport w.fmt (if keyword = [] then w.cin.headD [] else keyword)
          ChefBot.new.restaurants ∧
    ChefBot.new.restaurants.map (recommendedOf "burger".toList) =
      [[("Burgers".toList, ⟨"Zinger Burger".toList, 450⟩)],
       [("Burgers".toList, ⟨"Beef Burger".toList, 480⟩)], []] := by
  constructor
  · rw [recommend_world]
    by_cases hk : keyword = []
    · simp only [hk, if_true, recommendFor_world]
      split <;> simp [List.append_assoc]
    · simp only [hk, if_false, recommendFor_world]
      split <;> simp
  · decide!

/-- C5 as stated fails for the empty keyword: every item name contains the
empty keyword, so Zinger Burger (450) would have to be listed; but
`recommend("")` asks for a keyword, and when the user answers "wrap" the line of
Zinger Burger is not printed. -/
theorem recommend_empty_keyword_counterexample :
    ¬ ∀ (keyword : Str) (w : World), ∀ r ∈ ChefBot.new.restaurants,
      ∀ entry ∈ recommendedOf keyword r,
        recommendLine w.fmt entry <:+: (ChefBot.new.recommend keyword w).cout := by
  intro h
  have h1 := h [] (World.initial ["wrap".toList] none) Cheezious (by simp [ChefBot.new])
    ("Burgers".toList, ⟨"Zinger Burger".toList, 450⟩) (by decide!)
  rw [← find_isSome_iff_occurs] at h1
  revert h1
  decide!

/-- C6. When `recommend` is called with the empty keyword and the line read at
the prompt is empty too, it prints, after the prompt and the title, restaurant
by restaurant in catalog order the items that cost at most 500, category by
category and in the order of each category's list, with a header only for a
restaurant that has such an item, and closes with the hint to order.  Over the
catalog these are three items of Cheezious (Spicy Zinger at exactly 500 among
them), five of Ranchers and none of Howdy. -/
theorem recommend_no_filter (w : World) (hline : w.cin.headD [] = []) :
    (ChefBot.new.recommend [] w).cout =
      w.cout ++ keywordPrompt ++ "\n RECOMMENDATIONS UNDER Rs ".toList ++ showDouble w.fmt 500 ++
        ":\n".toList ++ fill 50 '-' ++ "\n".toList ++
        (ChefBot.new.restaurants.map (fun r =>
          if cheapItems r = [] then []
          else groupHeader r ++ ((cheapItems r).map (recommendLine w.fmt)).flatten)).flatten ++
        fill 50 '-' ++ "\n".toList ++ " Use 'order' command to place an order!\n".toList ∧
    ChefBot.new.restaurants.map cheapItems =
      [[("Burgers".toList, ⟨"Zinger Burger".toList, 450⟩),
        ("Burgers".toList, ⟨"Cheese Zinger".toList, 480⟩),
        ("Burgers".toList, ⟨"Spicy Zinger".toList, 500⟩)],
       [("Burgers".toList, ⟨"Beef Burger".toList, 480⟩),
        ("Sandwiches".toList, ⟨"Club Sandwich".toList, 400⟩),
        ("Sandwiches".toList, ⟨"Cheese Sandwich".toList, 370⟩),
        ("Wraps".toList, ⟨"Grilled Wrap".toList, 300⟩),
        ("Wraps".toList, ⟨"Zinger Wrap".toList, 350⟩)],
       []] := by
  constructor
  · have hany : anyRecommended [] ChefBot.new.restaurants = true := by decide!
    rw [recommend_world]
    simp only [if_true, hline, recommendFor_world, hany, true_and]
    unfold recommendReport recommendListing
    simp only [recommendedOf_nil, hany, if_true]
    split <;> simp [List.append_assoc]
  · decide!

/-- C6 on a first run with an empty line typed at the prompt: the complete
text printed. -/
theorem recommend_no_filter_witness :
    (ChefBot.new.recommend [] (World.initial [[]] none)).cout =
      ("Enter item keyword (burger, pizza, pasta, wrap, sandwich) or press Enter for all: " ++
       "\n RECOMMENDATIONS UNDER Rs 500:\n" ++
       "--------------------------------------------------\n" ++
       "\n Cheezious:\n" ++
       "   • Zinger Burger (Burgers) - Rs 450\n" ++
       "   • Cheese Zinger (Burgers) - Rs 480\n" ++
       "   • Spicy Zinger (Burgers) - Rs 500\n" ++
       "\n Ranchers:\n" ++
       "   • Beef Burger (Burgers) - Rs 480\n" ++
       "   • Club Sandwich (Sandwiches) - Rs 400\n" ++
       "   • Cheese Sandwich (Sandwiches) - Rs 370\n" ++
       "   • Grilled Wrap (Wraps) - Rs 300\n" ++
       "   • Zinger Wrap (Wraps) - Rs 350\n" ++
       "--------------------------------------------------\n" ++
       " Use 'order' command to place an order!\n").toList :=
  ((recommend_no_filter (World.initial [[]] none) rfl).1).trans (by decide!)

/-! ## Reading lines -/

@[simp] theorem skip_zero (w : World) : w.skip 0 = w := by
  cases w
  simp [World.skip]

@[simp] theorem skip_cin (w : World) (n : Nat) : (w.skip n).cin = w.cin.drop n := rfl

@[simp] theorem skip_cout (w : World) (n : Nat) : (w.skip n).cout = w.cout := rfl

@[simp] theorem skip_fmt (w : World) (n : Nat) : (w.skip n).fmt = w.fmt := rfl

@[simp] theorem skip_orderHistory (w : World) (n : Nat) :
    (w.skip n).orderHistory = w.orderHistory := rfl

theorem getline_skip (w : World) (n : Nat) :
    getline (w.skip n) = (w.answer n, w.skip (n + 1)) := by
  rw [getline_eq]
  simp only [World.skip, World.answer, List.tail_drop]
  rw [List.headD_eq_head?_getD, List.head?_drop, List.getD_eq_getElem?_getD]

theorem getline_skip_print (w : World) (n : Nat) (s : Str) :
    getline ((w.skip n).print s) = (w.answer n, (w.skip (n + 1)).print s) := by
  rw [getline_print, getline_skip]

theorem getline_print_zero (w : World) (s : Str) :
    getline (w.print s) = (w.answer 0, (w.skip 1).print s) := by
  have := getline_skip_print w 0 s
  simpa using this

@[simp] theorem skip_skip (w : World) (m n : Nat) : (w.skip m).skip n = w.skip (m + n) := by
  simp [World.skip, List.drop_drop, Nat.add_comm]

@[simp] theorem answer_skip (w : World) (m n : Nat) : (w.skip m).answer n = w.answer (m + n) := by
  simp only [World.skip, World.answer, List.getD_eq_getElem?_getD, List.getElem?_drop]

@[simp] theorem answer_print (w : World) (s : Str) (n : Nat) :
    (w.print s).answer n = w.answer n := rfl

/-! ## Functions that only print -/

/-- The function only appends text to `cout`. -/
theorem foldl_prints {α : Type} (f : World → α → World)
    (hf : ∀ w a, ∃ s, f w a = w.print s) (l : List α) (w : World) :
    ∃ s, l.foldl f w = w.print s := by
  induction l generalizing w with
  | nil => exact ⟨[], by simp⟩
  | cons a t ih =>
    obtain ⟨s1, h1⟩ := hf w a
    obtain ⟨s2, h2⟩ := ih (w.print s1)
    exact ⟨s1 ++ s2, by rw [List.foldl_cons, h1, h2, print_print]⟩

theorem show_prints (item : MenuItem) (w : World) : ∃ s, item.show w = w.print s :=
  ⟨_, by simp only [MenuItem.show, printNum_eq, print_print, print_fmt]; rfl⟩

theorem showMenu_prints (r : Restaurant) (w : World) : ∃ s, r.showMenu w = w.print s := by
  unfold Restaurant.showMenu
  apply foldl_prints
  intro w category
  obtain ⟨s, hs⟩ := foldl_prints (fun w (item : MenuItem) => item.show w)
    (fun w item => show_prints item w) category.2
    (((w.print "  ".toList).print category.1).print ":\n".toList)
  exact ⟨_, by rw [hs]; simp only [print_print]; rfl⟩

theorem showDetails_prints (r : Restaurant) (w : World) : ∃ s, r.showDetails w = w.print s := by
  unfold Restaurant.showDetails
  simp only [printNum_eq, print_print, print_fmt]
  generalize hw1 : w.print _ = w1
  obtain ⟨s1, h1⟩ := foldl_prints
    (fun w i =>
      ((((((w.print "   • ".toList).print r.name).print " ".toList).print
        (r.branches.getD i [])).print " - ".toList).print (r.addresses.getD i [])).print
        "\n".toList)
    (fun w i => ⟨_, by simp only [print_print]; rfl⟩) (List.range r.branches.length) w1
  simp only [print_print] at h1
  rw [h1]
  obtain ⟨s2, h2⟩ := showMenu_prints r ((w1.print s1).print "\n Menu:\n".toList)
  rw [h2, ← hw1]
  exact ⟨_, by simp only [print_print]; rfl⟩

/-! ## The order dialogue -/

theorem order_confirmed_path (bot : ChefBot) (w : World) (r : Restaurant) (items : List MenuItem)
    (item : MenuItem)
    (hr : bot.restaurants.find? (fun r => toLower r.name == toLower (w.answer 0)) = some r)
    (hc : mapFind r.categorizedMenu (w.answer 1) = some items)
    (hi : items.find? (fun item => toLower item.name == toLower (w.answer 2)) = some item)
    (hy : toLower (w.answer 3) = "yes".toList ∨ toLower (w.answer 3) = "y".toList) :
    ∃ s, bot.order w = ChefBot.orderConfirmed r item ((w.skip 4).print s) := by
  choose det hdet using showDetails_prints r
  choose lst hlst using fun w => foldl_prints (fun w (item : MenuItem) => item.show w)
    (fun w item => show_prints item w) items w
  unfold ChefBot.order
  simp only [print_print, getline_print_zero, hr, hdet, hc, hlst, hi, skip_skip, answer_skip,
    answer_print, Nat.reduceAdd, printNum_eq, print_fmt, hy, if_true]
  exact ⟨_, rfl⟩

theorem mapFind_mem (m : MenuMap) (k : Str) (v : List MenuItem) (h : mapFind m k = some v) :
    (k, v) ∈ m := by
  induction m with
  | nil => simp [mapFind] at h
  | cons e rest ih =>
    obtain ⟨k0, v0⟩ := e
    unfold mapFind at h
    by_cases hk : k0 = k
    · simp only [hk, if_true, Option.some.injEq] at h
      simp [hk, h]
    · simp only [hk, if_false] at h
      exact List.mem_cons_of_mem _ (ih h)

/-- The literal `0.15` is not exact in binary: the rounding is felt. -/
theorem fl64_literal_inexact :
    fl64 (15 / 100) = 5404319552844595 / 36028797018963968 ∧ fl64 (15 / 100) ≠ 15 / 100 := by
  decide!

theorem catalog_tax_exact :
    ∀ r ∈ ChefBot.new.restaurants, ∀ c ∈ r.categorizedMenu, ∀ item ∈ c.2,
      orderTax item.price = 15 / 100 * item.price ∧
      orderTotal item.price = item.price + 15 / 100 * item.price := by
  decide!

/-- The text the confirmed branch prints and the block it logs. -/
theorem orderConfirmed_world (selected : Restaurant) (item : MenuItem) (w : World) :
    (ChefBot.orderConfirmed selected item w).cout =
      w.cout ++ "\n ORDER CONFIRMED!\n".toList ++ fill 25 '-' ++ "\n".toList ++
        " BILL SUMMARY:\n".toList ++
        "Item: ".toList ++ item.name ++ " - Rs ".toList ++
          showDouble { fixed := true, precision := 2 } item.price ++ "\n".toList ++
        "Tax (15%): Rs ".toList ++
          showDouble { fixed := true, precision := 2 } (orderTax item.price) ++ "\n".toList ++
        "Total: Rs ".toList ++
          showDouble { fixed := true, precision := 2 } (orderTotal item.price) ++ "\n".toList ++
        fill 25 '-' ++ "\n".toList ++
        (if w.orderHistory.canOpen = true then " Order logged successfully.\n".toList
          else " Warning: Could not log order to file.\n".toList) ++
        " Your order will be prepared shortly!\n".toList ∧
    (ChefBot.orderConfirmed selected item w).orderHistory =
      (if w.orderHistory.canOpen = true then w.orderHistory.append (orderRecord selected item)
        else w.orderHistory) ∧
    (ChefBot.orderConfirmed selected item w).cin = w.cin := by
  unfold ChefBot.orderConfirmed
  cases hc : w.orderHistory.canOpen <;>
    simp [World.print, World.printNum, World.setFixed, hc, List.append_assoc]

/-- C7. For every confirmed order of a catalog item (the three lookups
succeed on the built-in catalog and the confirmation lower-cases to "yes" or
"y"), the rounded machine values of tax and total are exactly 15 % of the price
and price plus tax; the bill shows price, tax and total with two decimals, and
when the log file can be opened the block appended to the order history carries
the same three amounts. -/
theorem order_bill_and_record (w : World) (r : Restaurant) (items : List MenuItem)
    (item : MenuItem)
    (hr : ChefBot.new.restaurants.find? (fun r => toLower r.name == toLower (w.answer 0)) =
      some r)
    (hc : mapFind r.categorizedMenu (w.answer 1) = some items)
    (hi : items.find? (fun item => toLower item.name == toLower (w.answer 2)) = some item)
    (hy : toLower (w.answer 3) = "yes".toList ∨ toLower (w.answer 3) = "y".toList) :
    orderTax item.price = 15 / 100 * item.price ∧
    orderTotal item.price = item.price + 15 / 100 * item.price ∧
    (∃ s, (ChefBot.new.order w).cout =
      w.cout ++ s ++ " BILL SUMMARY:\n".toList ++ billLines item ++ fill 25 '-' ++ "\n".toList ++
        (if w.orderHistory.canOpen = true then " Order logged successfully.\n".toList
          else " Warning: Could not log order to file.\n".toList) ++
        " Your order will be prepared shortly!\n".toList) ∧
    (w.orderHistory.canOpen = true →
      (ChefBot.new.order w).orderHistory.text = w.orderHistory.text ++ historyBlock r item) := by
  have hex := catalog_tax_exact r (List.mem_of_find?_eq_some hr) _ (mapFind_mem _ _ _ hc) item
    (List.mem_of_find?_eq_some hi)
  obtain ⟨s, hs⟩ := order_confirmed_path ChefBot.new w r items item hr hc hi hy
  obtain ⟨hcout, hhist, -⟩ := orderConfirmed_world r item ((w.skip 4).print s)
  refine ⟨hex.1, hex.2, ⟨s ++ "\n ORDER CONFIRMED!\n".toList ++ fill 25 '-' ++ "\n".toList, ?_⟩, ?_⟩
  · rw [hs, hcout, hex.1, hex.2]
    simp only [billLines, print_cout, skip_cout, print_orderHistory, skip_orderHistory,
      List.append_assoc]
  · intro hopen
    rw [hs, hhist]
    simp only [print_orderHistory, skip_orderHistory, hopen, if_true, LogFile.append, orderRecord,
      historyBlock, hex.1, hex.2]

/-- C7 for restaurant "Cheezious", category "Burgers", item "Zinger Burger",
confirmation "yes": tax 67.50 and total 517.50 on the bill, and one block in
the order history. -/
theorem order_bill_and_record_witness :
    orderTax 450 = 135 / 2 ∧ orderTotal 450 = 1035 / 2 ∧
    billLines ⟨"Zinger Burger".toList, 450⟩ =
      ("Item: Zinger Burger - Rs 450.00\n" ++ "Tax (15%): Rs 67.50\n" ++
        "Total: Rs 517.50\n").toList ∧
    (ChefBot.new.order (World.initial
      ["Cheezious".toList, "Burgers".toList, "Zinger Burger".toList, "yes".toList]
      none)).orderHistory.text =
      ("Restaurant: Cheezious\n" ++ "Item: Zinger Burger\n" ++ "Price: Rs 450\n" ++
        "Tax: Rs 67.5\n" ++ "Total: Rs 517.5\n" ++ "-----------------------------\n").toList :=
  have h := order_bill_and_record
    (World.initial ["Cheezious".toList, "Burgers".toList, "Zinger Burger".toList, "yes".toList]
      none)
    Cheezious
    [⟨"Zinger Burger".toList, 450⟩, ⟨"Cheese Zinger".toList, 480⟩,
      ⟨"Double Zinger".toList, 650⟩, ⟨"Spicy Zinger".toList, 500⟩]
    ⟨"Zinger Burger".toList, 450⟩ (by decide!) (by decide!) (by decide!) (by decide!)
  ⟨h.1.trans (by decide!), h.2.1.trans (by decide!), by decide!,
    (h.2.2.2 rfl).trans (by decide!)⟩

/-- C9 fails on the code: the category answer is looked up with `map::find`,
an exact comparison.  For Cheezious the answer "burgers" equals the category
"Burgers" up to letter case, yet the lookup fails: the category-not-found
message is printed, the remaining answers are not read and nothing is logged. -/
theorem order_category_case_sensitive :
    toLower "burgers".toList = toLower "Burgers".toList ∧
    (mapFind Cheezious.categorizedMenu "Burgers".toList).isSome = true ∧
    mapFind Cheezious.categorizedMenu "burgers".toList = none ∧
    (ChefBot.new.order (World.initial
      ["Cheezious".toList, "burgers".toList, "Zinger Burger".toList, "yes".toList] none)).cin =
      ["Zinger Burger".toList, "yes".toList] ∧
    (ChefBot.new.order (World.initial
      ["Cheezious".toList, "burgers".toList, "Zinger Burger".toList, "yes".toList]
      none)).orderHistory.text = [] ∧
    (" Category 'burgers' not found.\n" ++
      "Available categories: Burgers Pastas Pizzas \n").toList <:+
      (ChefBot.new.order (World.initial
        ["Cheezious".toList, "burgers".toList, "Zinger Burger".toList, "yes".toList] none)).cout := by
  decide!

/-! ## Opening hours -/

theorem find_catalog_by_name (r : Restaurant) (hr : r ∈ ChefBot.new.restaurants) (name : Str)
    (hname : toLower name = toLower r.name) :
    ChefBot.new.restaurants.find? (fun r0 => toLower r0.name == toLower name) = some r := by
  rw [hname]
  simp only [ChefBot.new, List.mem_cons, List.mem_singleton, List.not_mem_nil, or_false] at hr
  rcases hr with h | h | h <;> subst h <;> decide!

/-- C10. With `w.localHour` standing for what the clock yields, for every
catalog restaurant: `isOpenNow` answers open exactly when the hour `h` satisfies
`12 ≤ h ≤ 23`, and answers closed when the time cannot be obtained; and
`checkOpenStatus`, called with the restaurant's name in any letter case, prints
the OPEN line in the first case and the CLOSED lines otherwise. -/
theorem open_iff_noon_to_eleven (w : World) (r : Restaurant)
    (hr : r ∈ ChefBot.new.restaurants) (name : Str) (hname : toLower name = toLower r.name) :
    (∀ h, w.localHour = some h → ((r.isOpenNow w).1 = true ↔ 12 ≤ h ∧ h ≤ 23)) ∧
    (w.localHour = none → (r.isOpenNow w).1 = false) ∧
    (∀ h, w.localHour = some h →
      (ChefBot.new.checkOpenStatus name w).cout =
        w.cout ++ "\n OPENING STATUS:\n".toList ++ fill 20 '-' ++ "\n".toList ++
          (if 12 ≤ h ∧ h ≤ 23 then
            " ".toList ++ r.name ++ " is OPEN now! (12 PM - 11 PM)\n".toList
          else
            " ".toList ++ r.name ++ " is CLOSED now.\n".toList ++
              "Opening hours: 12 PM - 11 PM\n".toList)) ∧
    (w.localHour = none →
      (ChefBot.new.checkOpenStatus name w).cout =
        w.cout ++ "\n OPENING STATUS:\n".toList ++ fill 20 '-' ++ "\n".toList ++
          "Error getting current time.\n".toList ++
          " ".toList ++ r.name ++ " is CLOSED now.\n".toList ++
          "Opening hours: 12 PM - 11 PM\n".toList) := by
  have hf := find_catalog_by_name r hr name hname
  refine ⟨?_, ?_, ?_, ?_⟩
  · intro h hh
    simp [Restaurant.isOpenNow, hh]
  · intro hh
    simp [Restaurant.isOpenNow, hh]
  · intro h hh
    unfold ChefBot.checkOpenStatus
    simp only [hf, Restaurant.isOpenNow, print_print, print_localHour, hh]
    by_cases hopen : 12 ≤ h ∧ h ≤ 23
    · simp only [hopen, and_self, decide_True, if_true, print_print, print_cout,
        List.append_assoc]
    · simp only [hopen, decide_False, if_false, Bool.false_eq_true, print_print, print_cout,
        List.append_assoc]
  · intro hh
    unfold ChefBot.checkOpenStatus
    simp only [hf, Restaurant.isOpenNow, print_print, print_localHour, hh, Bool.false_eq_true,
      if_false, print_cout, List.append_assoc]

/-- C10 for "CheeZious" at 11 and at 23 o'clock: closed in the morning, open at
11 PM. -/
theorem open_iff_noon_to_eleven_witness :
    (ChefBot.new.checkOpenStatus "CheeZious".toList (World.initial [] (some 11))).cout =
      ("\n OPENING STATUS:\n--------------------\n" ++
        " Cheezious is CLOSED now.\nOpening hours: 12 PM - 11 PM\n").toList ∧
    (ChefBot.new.checkOpenStatus "CheeZious".toList (World.initial [] (some 23))).cout =
      ("\n OPENING STATUS:\n--------------------\n" ++
        " Cheezious is OPEN now! (12 PM - 11 PM)\n").toList :=
  ⟨((open_iff_noon_to_eleven (World.initial [] (some 11)) Cheezious (by decide!)
      "CheeZious".toList (by decide)).2.2.1 11 rfl).trans (by decide),
   ((open_iff_noon_to_eleven (World.initial [] (some 23)) Cheezious (by decide!)
      "CheeZious".toList (by decide)).2.2.1 23 rfl).trans (by decide)⟩

/-! ## The branch finder -/

theorem foldl_emit_filter {α β : Type} (f : Scan → α → Scan) (header : Str) (p : β → Bool)
    (g : α → β) (line : β → Str)
    (hf : ∀ s a, f s a = s.emit header (([g a].filter p).map line)) (l : List α) (s : Scan) :
    l.foldl f s = s.emit header (((l.map g).filter p).map line) := by
  induction l generalizing s with
  | nil => simp
  | cons a rest ih =>
    rw [List.foldl_cons, ih, hf, emit_emit]
    congr 1
    cases h : p (g a) <;> simp [List.filter_cons, h]

theorem nearestBranchAt_eq (city : Str) (r : Restaurant) (s : Scan) (i : Nat) :
    nearestBranchAt city r s i =
      s.emit (groupHeader r)
        (([(r.branches.getD i [], r.addresses.getD i [])].filter
          (fun p => decide (toLower city <:+: toLower p.2))).map branchLine) := by
  unfold nearestBranchAt
  generalize r.branches.getD i [] = b
  generalize r.addresses.getD i [] = a
  by_cases hs : toLower city <:+: toLower a
  · have hd : (find (toLower a) (toLower city)).isSome = true :=
      (find_isSome_iff_occurs _ _).2 hs
    simp only [hd, if_true]
    cases hh : s.headed <;>
      simp [hs, hh, Scan.emit, groupHeader, branchLine, List.append_assoc]
  · have hd : ¬ (find (toLower a) (toLower city)).isSome = true :=
      fun h => hs ((find_isSome_iff_occurs _ _).1 h)
    simp only [hd, if_false]
    simp [hs]

theorem range_pairs_eq_zip (bs as : List Str) (h : bs.length = as.length) :
    (List.range as.length).map (fun i => (bs.getD i [], as.getD i [])) = bs.zip as := by
  apply List.ext_getElem
  · simp [h]
  · intro i h1 h2
    simp only [List.length_map, List.length_range] at h1
    have hb : i < bs.length := h ▸ h1
    simp [List.getD_eq_getElem?_getD, List.getElem?_eq_getElem, h1, hb]

theorem foldl_nearestBranchAt (city : Str) (r : Restaurant)
    (hlen : r.branches.length = r.addresses.length) (s : Scan) :
    (List.range r.addresses.length).foldl (nearestBranchAt city r) s =
      s.emit (groupHeader r) ((branchesIn city r).map branchLine) := by
  rw [foldl_emit_filter (nearestBranchAt city r) (groupHeader r)
    (fun p => decide (toLower city <:+: toLower p.2))
    (fun i => (r.branches.getD i [], r.addresses.getD i [])) branchLine
    (nearestBranchAt_eq city r), range_pairs_eq_zip _ _ hlen]
  rfl

theorem foldl_nearestBranch (city : Str) (rs : List Restaurant)
    (hlen : ∀ r ∈ rs, r.branches.length = r.addresses.length) (w : World) (found : Bool) :
    rs.foldl
        (fun (s : World × Bool) r =>
          let t := (List.range r.addresses.length).foldl (nearestBranchAt city r)
            { w := s.1, headed := false, found := s.2 }
          (t.w, t.found))
        (w, found) =
      (w.print (branchListing city rs), found || anyBranchIn city rs) := by
  induction rs generalizing w found with
  | nil => simp [branchListing, anyBranchIn]
  | cons r rest ih =>
    rw [List.foldl_cons, ih (fun r0 h0 => hlen r0 (List.mem_cons_of_mem _ h0))]
    simp only [foldl_nearestBranchAt city r (hlen r (List.mem_cons_self _ _))]
    unfold Scan.emit
    by_cases h : branchesIn city r = []
    · simp [h, branchListing, anyBranchIn]
    · simp [h, branchListing, anyBranchIn, Bool.or_assoc]

/-- The world after `nearestBranch`, in closed form, for restaurants whose
branch and address lists have the same length. -/
theorem nearestBranch_world (bot : ChefBot)
    (hlen : ∀ r ∈ bot.restaurants, r.branches.length = r.addresses.length) (w : World) :
    bot.nearestBranch w = (w.skip 1).print (branchReport (w.answer 0) bot.restaurants) := by
  unfold ChefBot.nearestBranch branchReport
  simp only [print_print, getline_print_zero, foldl_nearestBranch _ _ hlen, Bool.false_or]
  cases ha : anyBranchIn (w.answer 0) bot.restaurants <;>
    simp only [Bool.not_false, Bool.not_true, if_true, if_false, Bool.false_eq_true, print_print,
      List.append_assoc, List.append_nil]

theorem catalog_lengths :
    ∀ r ∈ ChefBot.new.restaurants, r.branches.length = r.addresses.length := by
  decide!

theorem anyBranchIn_eq_false_iff (city : Str) (rs : List Restaurant) :
    anyBranchIn city rs = false ↔
      ∀ r ∈ rs, ∀ p ∈ r.branches.zip r.addresses, ¬ toLower city <:+: toLower p.2 := by
  unfold anyBranchIn branchesIn
  simp only [List.any_eq_false]
  constructor
  · intro h r hr p hp hsub
    have h1 := h r hr
    have hmem : p ∈ (r.branches.zip r.addresses).filter
        (fun p => decide (toLower city <:+: toLower p.2)) :=
      List.mem_filter.2 ⟨hp, by simpa using hsub⟩
    cases hf : (r.branches.zip r.addresses).filter
        (fun p => decide (toLower city <:+: toLower p.2)) with
    | nil => rw [hf] at hmem; exact absurd hmem (List.not_mem_nil _)
    | cons a t => rw [hf] at h1; simp at h1
  · intro h r hr
    have hnil : (r.branches.zip r.addresses).filter
        (fun p => decide (toLower city <:+: toLower p.2)) = [] := by
      rw [List.filter_eq_nil_iff]
      intro p hp
      simpa using h r hr p hp
    rw [hnil]
    simp

/-- C11. The branch finder reads a city and prints, after title, prompt and
heading, restaurant by restaurant in catalog order exactly the (branch,
address) pairs whose address contains the city (letter case ignored), each
group under the restaurant's header; the not-found message follows exactly when
no pair of the catalog matches.  For "Lahore" the only pair is (DHA, "DHA
Lahore") of Ranchers. -/
theorem nearestBranch_lists_branches_in_city (w : World) :
    ChefBot.new.nearestBranch w =
      (w.skip 1).print (branchReport (w.answer 0) ChefBot.new.restaurants) ∧
    (∀ city, anyBranchIn city ChefBot.new.restaurants = false ↔
      ∀ r ∈ ChefBot.new.restaurants, ∀ p ∈ r.branches.zip r.addresses,
        ¬ toLower city <:+: toLower p.2) ∧
    ChefBot.new.restaurants.map (branchesIn "Lahore".toList) =
      [[], [("DHA".toList, "DHA Lahore".toList)], []] :=
  ⟨nearestBranch_world ChefBot.new catalog_lengths w,
    fun city => anyBranchIn_eq_false_iff city ChefBot.new.restaurants, by decide!⟩

theorem nearestBranch_lahore_text :
    (ChefBot.new.nearestBranch (World.initial ["Lahore".toList] none)).cout =
      ("\n BRANCH FINDER\n--------------------\n" ++
       "Enter city name (e.g., Islamabad, Lahore): " ++
       "\n Branches in Lahore:\n------------------------------\n" ++
       "\n Ranchers:\n   • DHA Branch\n     DHA Lahore\n").toList := by
  decide!

/-! ## The command guide and the dispatcher -/

theorem tellMeAbout_branches (l : Str)
    (h : tellMeAbout l = TellCall.byField "branches".toList) : found l "branches" = true := by
  unfold tellMeAbout at h
  split_ifs at h <;> first
    | assumption
    | exact absurd h (by decide)

theorem dispatch_ne_branches (input : Str) :
    dispatch input ≠ Call.tellMeAbout (TellCall.byField "branches".toList) := by
  intro h
  rw [dispatch_eq] at h
  split_ifs at h with h1 h2 h3 h4 h5 h6
  have ht : tellMeAbout (toLower input) = TellCall.byField "branches".toList :=
    Call.tellMeAbout.inj h
  have hb := tellMeAbout_branches _ ht
  rw [found_eq_hasSub] at hb
  have hbr : hasSub (toLower input) "branch" = true :=
    hasSub_mono _ "branch" "branches" (by decide) hb
  simp [hbr] at h4

/-- C12 fails on the code.  The command guide printed by `showHelp` lists
"tell me about branches" among the information commands, and the tell-me-about
branch of `handleInput` has a test for "branches" that calls `showByField`; but
the line contains "branch", so the branch-finder test, which comes earlier in
the chain, takes it: `nearestBranch` runs and asks for a city.  No input at all
reaches `showByField("branches")`. -/
theorem tell_me_about_branches_runs_branch_finder :
    "   • 'tell me about branches' - Show all branches\n".toList <:+:
      (ChefBot.new.showHelp (World.initial [] none)).cout ∧
    dispatch "tell me about branches".toList = Call.branchFinder ∧
    (∀ w, ChefBot.new.handleInput "tell me about branches".toList w =
      ChefBot.new.nearestBranch (logChat "tell me about branches".toList w)) ∧
    (∀ input, dispatch input ≠ Call.tellMeAbout (TellCall.byField "branches".toList)) ∧
    (ChefBot.new.handleInput "tell me about branches".toList (World.initial [] none)).cout =
      ("\n BRANCH FINDER\n--------------------\n" ++
       "Enter city name (e.g., Islamabad, Lahore): " ++
       "\n Branches in :\n------------------------------\n" ++
       "\n Cheezious:\n" ++
       "   • I-8 Branch\n     I-8 Islamabad\n" ++
       "   • G-10 Branch\n     G-10 Islamabad\n" ++
       "   • F-11 Branch\n     F-11 Islamabad\n" ++
       "\n Ranchers:\n" ++
       "   • G-9 Branch\n     G-9 Islamabad\n" ++
       "   • F-6 Branch\n     F-6 Islamabad\n" ++
       "   • DHA Branch\n     DHA Lahore\n" ++
       "\n Howdy:\n" ++
       "   • Giga Mall Branch\n     Giga Mall Islamabad\n" ++
       "   • Blue Area Branch\n     Blue Area Islamabad\n" ++
       "   • PWD Branch\n     PWD Islamabad\n").toList := by
  have hd : dispatch "tell me about branches".toList = Call.branchFinder := by decide
  refine ⟨by decide!, hd, ?_, dispatch_ne_branches, by decide!⟩
  intro w
  unfold ChefBot.handleInput
  rw [hd]
  rfl

/-! ## The catalog stays as constructed -/

theorem foldl_print_fmt {α : Type} (f : World → α → World) (g : Fmt → α → Str)
    (hf : ∀ w a, f w a = w.print (g w.fmt a)) (l : List α) (w : World) :
    l.foldl f w = w.print ((l.map (g w.fmt)).flatten) := by
  induction l generalizing w with
  | nil => simp
  | cons a rest ih =>
    rw [List.foldl_cons, hf, ih, print_fmt, print_print, List.map_cons, List.flatten_cons]

theorem show_text (item : MenuItem) (w : World) : item.show w = w.print (itemLine w.fmt item) := by
  unfold MenuItem.show itemLine
  simp only [printNum_eq, print_print, print_fmt]

theorem showMenu_text (r : Restaurant) (w : World) : r.showMenu w = w.print (menuText w.fmt r) := by
  unfold Restaurant.showMenu menuText
  apply foldl_print_fmt _
    (fun f (category : Str × List MenuItem) =>
      "  ".toList ++ category.1 ++ ":\n".toList ++ (category.2.map (itemLine f)).flatten)
  intro w category
  rw [foldl_print_fmt (fun w (item : MenuItem) => item.show w) itemLine
    (fun w item => show_text item w)]
  simp only [print_print, print_fmt]

/-- The text `showByField` adds to `cout` depends on the field and on the
number format of `cout`, and on nothing else in the world. -/
theorem showByField_text (bot : ChefBot) (field : Str) (w : World) :
    bot.showByField field w = w.print (fieldText bot field w.fmt) := by
  unfold ChefBot.showByField fieldText
  split_ifs
  · rw [foldl_print_fmt
      (fun w (r : Restaurant) => ((w.print "   • ".toList).print r.name).print "\n".toList)
      (fun _ r => "   • ".toList ++ r.name ++ "\n".toList)
      (fun w r => by simp only [print_print])]
    simp only [print_print, print_fmt, List.append_assoc]
  · rw [foldl_print_fmt
      (fun w (r : Restaurant) =>
        ((((w.print "   • ".toList).print r.name).print ": ".toList).printNum r.rating).print
          "/5\n".toList)
      (fun f r => "   • ".toList ++ r.name ++ ": ".toList ++ showDouble f r.rating ++
        "/5\n".toList)
      (fun w r => by simp only [printNum_eq, print_print, print_fmt])]
    simp only [print_print, print_fmt, List.append_assoc]
  · rw [foldl_print_fmt
      (fun w (r : Restaurant) =>
        r.showMenu (((w.print "\n".toList).print r.name).print ":\n".toList))
      (fun f r => "\n".toList ++ r.name ++ ":\n".toList ++ menuText f r)
      (fun w r => by simp only [showMenu_text, print_print, print_fmt])]
    simp only [print_print, print_fmt, List.append_assoc]
  · rw [foldl_print_fmt
      (fun w (r : Restaurant) =>
        r.addresses.foldl
          (fun w a => ((w.print "   • ".toList).print a).print "\n".toList)
          (((w.print "\n".toList).print r.name).print ":\n".toList))
      (fun _ r => "\n".toList ++ r.name ++ ":\n".toList ++
        (r.addresses.map (fun a => "   • ".toList ++ a ++ "\n".toList)).flatten)
      (fun w r => by
        dsimp only
        rw [foldl_print_fmt
          (fun w (a : Str) => ((w.print "   • ".toList).print a).print "\n".toList)
          (fun _ a => "   • ".toList ++ a ++ "\n".toList)
          (fun w a => by simp only [print_print])]
        simp only [print_print])]
    simp only [print_print, print_fmt, List.append_assoc]
  · simp only [print_print, List.append_assoc]

theorem printedBy_print (f : World → World) (w : World) (s : Str) (h : f w = w.print s) :
    printedBy f w = s := by
  unfold printedBy
  rw [h, print_cout, List.drop_left]

theorem printedBy_showByField (bot : ChefBot) (field : Str) (w : World) :
    printedBy (bot.showByField field) w = fieldText bot field w.fmt :=
  printedBy_print _ w _ (showByField_text bot field w)

/-! ## Number format after an order -/

theorem orderConfirmed_fmt (selected : Restaurant) (item : MenuItem) (w : World) :
    (ChefBot.orderConfirmed selected item w).fmt = { fixed := true, precision := 2 } := by
  unfold ChefBot.orderConfirmed
  cases hc : w.orderHistory.canOpen <;>
    simp [World.print, World.printNum, World.setFixed, hc]

/-- C14 fails on the code.  The bill of a confirmed order sets `cout` to fixed
notation with two decimals and nothing sets it back, and what `showByField`
prints depends on that setting.  So the setting outlives the bill: in the
initial state `showByField("rating")` prints 4.5/5, 4.2/5, 4/5 and
`showByField("menu")` prints "Rs 450"; after one confirmed order the same calls
print 4.50/5, 4.20/5, 4.00/5 and "Rs 450.00". -/
theorem showByField_after_order_two_decimals :
    (∀ selected item w,
      (ChefBot.orderConfirmed selected item w).fmt = { fixed := true, precision := 2 }) ∧
    (∀ field w,
      printedBy (ChefBot.new.showByField field) w = fieldText ChefBot.new field w.fmt) ∧
    (World.initial [] none).fmt = { fixed := false, precision := 6 } ∧
    afterZingerOrder.fmt = { fixed := true, precision := 2 } ∧
    printedBy (ChefBot.new.showByField "rating".toList) (World.initial [] none) =
      ("\n RESTAURANT RATINGS:\n" ++ "   • Cheezious: 4.5/5\n" ++ "   • Ranchers: 4.2/5\n" ++
        "   • Howdy: 4/5\n").toList ∧
    printedBy (ChefBot.new.showByField "rating".toList) afterZingerOrder =
      ("\n RESTAURANT RATINGS:\n" ++ "   • Cheezious: 4.50/5\n" ++ "   • Ranchers: 4.20/5\n" ++
        "   • Howdy: 4.00/5\n").toList ∧
    "   - Zinger Burger: Rs 450\n".toList <:+:
      printedBy (ChefBot.new.showByField "menu".toList) (World.initial [] none) ∧
    "   - Zinger Burger: Rs 450.00\n".toList <:+:
      printedBy (ChefBot.new.showByField "menu".toList) afterZingerOrder := by
  have hfmt : afterZingerOrder.fmt = { fixed := true, precision := 2 } := by decide!
  refine ⟨orderConfirmed_fmt, printedBy_showByField ChefBot.new, rfl, hfmt, ?_, ?_, ?_, ?_⟩
  · rw [printedBy_showByField]
    decide!
  · rw [printedBy_showByField, hfmt]
    decide!
  · rw [printedBy_showByField, ← find_isSome_iff_occurs]
    decide!
  · rw [printedBy_showByField, hfmt, ← find_isSome_iff_occurs]
    decide!

/-! ## The field argument of `showByField` -/

theorem tellMeAbout_byField_known (l field : Str) (h : tellMeAbout l = TellCall.byField field) :
    field ∈ ["name".toList, "address".toList, "menu".toList, "branches".toList,
      "rating".toList, "prices".toList] := by
  unfold tellMeAbout at h
  split_ifs at h <;> first
    | exact TellCall.noConfusion h
    | (rw [← TellCall.byField.inj h]; decide)

theorem showByField_known (bot : ChefBot) (field : Str) (w : World)
    (hf : field ∈ ["name".toList, "address".toList, "menu".toList, "branches".toList,
      "rating".toList, "prices".toList]) :
    ∃ title ∈ [" RESTAURANT NAMES:\n".toList, " RESTAURANT RATINGS:\n".toList,
        " ALL RESTAURANT MENUS:\n".toList, " RESTAURANT ADDRESSES:\n".toList],
      ∃ s, bot.showByField field w = w.print ("\n".toList ++ title ++ s) := by
  have hnames := foldl_prints
    (fun w (r : Restaurant) => ((w.print "   • ".toList).print r.name).print "\n".toList)
    (fun w r => ⟨_, by simp only [print_print]; rfl⟩) bot.restaurants
  have hratings := foldl_prints
    (fun w (r : Restaurant) =>
      ((((w.print "   • ".toList).print r.name).print ": ".toList).printNum r.rating).print
        "/5\n".toList)
    (fun w r => ⟨_, by simp only [printNum_eq, print_print, print_fmt]; rfl⟩) bot.restaurants
  have hmenus := foldl_prints
    (fun w (r : Restaurant) =>
      r.showMenu (((w.print "\n".toList).print r.name).print ":\n".toList))
    (fun w r => by
      obtain ⟨s, hs⟩ := showMenu_prints r (((w.print "\n".toList).print r.name).print ":\n".toList)
      exact ⟨_, hs.trans (by simp only [print_print]; rfl)⟩) bot.restaurants
  have haddr := foldl_prints
    (fun w (r : Restaurant) =>
      r.addresses.foldl
        (fun w a => ((w.print "   • ".toList).print a).print "\n".toList)
        (((w.print "\n".toList).print r.name).print ":\n".toList))
    (fun w r => by
      obtain ⟨s, hs⟩ := foldl_prints
        (fun w (a : Str) => ((w.print "   • ".toList).print a).print "\n".toList)
        (fun w a => ⟨_, by simp only [print_print]; rfl⟩) r.addresses
        (((w.print "\n".toList).print r.name).print ":\n".toList)
      exact ⟨_, hs.trans (by simp only [print_print]; rfl)⟩) bot.restaurants
  simp only [List.mem_cons, List.mem_singleton, List.not_mem_nil, or_false] at hf
  unfold ChefBot.showByField
  rcases hf with h | h | h | h | h | h <;> subst h
  · obtain ⟨s, hs⟩ := hnames ((w.print "\n".toList).print " RESTAURANT NAMES:\n".toList)
    refine ⟨_, List.mem_cons_self _ _, s, ?_⟩
    rw [if_pos rfl, hs]
    simp only [print_print, List.append_assoc]
  · obtain ⟨s, hs⟩ := haddr ((w.print "\n".toList).print " RESTAURANT ADDRESSES:\n".toList)
    refine ⟨" RESTAURANT ADDRESSES:\n".toList, by simp, s, ?_⟩
    rw [if_neg (by decide), if_neg (by decide), if_neg (by decide), if_pos (by decide), hs]
    simp only [print_print, List.append_assoc]
  · obtain ⟨s, hs⟩ := hmenus ((w.print "\n".toList).print " ALL RESTAURANT MENUS:\n".toList)
    refine ⟨" ALL RESTAURANT MENUS:\n".toList, by simp, s, ?_⟩
    rw [if_neg (by decide), if_neg (by decide), if_pos (by decide), hs]
    simp only [print_print, List.append_assoc]
  · obtain ⟨s, hs⟩ := haddr ((w.print "\n".toList).print " RESTAURANT ADDRESSES:\n".toList)
    refine ⟨" RESTAURANT ADDRESSES:\n".toList, by simp, s, ?_⟩
    rw [if_neg (by decide), if_neg (by decide), if_neg (by decide), if_pos (by decide), hs]
    simp only [print_print, List.append_assoc]
  · obtain ⟨s, hs⟩ := hratings ((w.print "\n".toList).print " RESTAURANT RATINGS:\n".toList)
    refine ⟨" RESTAURANT RATINGS:\n".toList, by simp, s, ?_⟩
    rw [if_neg (by decide), if_pos (by decide), hs]
    simp only [print_print, List.append_assoc]
  · obtain ⟨s, hs⟩ := hmenus ((w.print "\n".toList).print " ALL RESTAURANT MENUS:\n".toList)
    refine ⟨" ALL RESTAURANT MENUS:\n".toList, by simp, s, ?_⟩
    rw [if_neg (by decide), if_neg (by decide), if_pos (by decide), hs]
    simp only [print_print, List.append_assoc]

/-- C15. Whenever the chain of `handleInput` arrives at a call of
`showByField`, the argument is one of name, address, menu, branches, rating,
prices; the call then prints one of the four listings, and not the apology of
the final `else` of `showByField`. -/
theorem handleInput_showByField_known (bot : ChefBot) (input field : Str) (w : World)
    (h : dispatch input = Call.tellMeAbout (TellCall.byField field)) :
    bot.handleInput input w = bot.showByField field (logChat input w) ∧
    field ∈ ["name".toList, "address".toList, "menu".toList, "branches".toList,
      "rating".toList, "prices".toList] ∧
    (∃ title ∈ [" RESTAURANT NAMES:\n".toList, " RESTAURANT RATINGS:\n".toList,
        " ALL RESTAURANT MENUS:\n".toList, " RESTAURANT ADDRESSES:\n".toList],
      ∃ s, bot.showByField field (logChat input w) =
        (logChat input w).print ("\n".toList ++ title ++ s)) ∧
    bot.showByField field (logChat input w) ≠
      (((logChat input w).print "\n".toList).print
        " Sorry, I don't understand that field.\n".toList).print
        "Try: names, ratings, menu, addresses, or branches\n".toList := by
  have hrun : bot.handleInput input w = bot.showByField field (logChat input w) := by
    unfold ChefBot.handleInput
    rw [h]
    rfl
  have hfield : field ∈ ["name".toList, "address".toList, "menu".toList, "branches".toList,
      "rating".toList, "prices".toList] := by
    rw [dispatch_eq] at h
    split_ifs at h
    exact tellMeAbout_byField_known _ _ (Call.tellMeAbout.inj h)
  have hknown := showByField_known bot field (logChat input w) hfield
  refine ⟨hrun, hfield, hknown, ?_⟩
  obtain ⟨title, ht, s, hs⟩ := hknown
  rw [hs]
  intro heq
  have hc := congrArg World.cout heq
  simp only [print_cout, List.append_assoc, List.append_cancel_left_eq] at hc
  simp only [List.mem_cons, List.mem_singleton, List.not_mem_nil, or_false] at ht
  rcases ht with ht | ht | ht | ht <;> subst ht <;> simp at hc

/-- C15 at "tell me about ratings": `showByField` is called with "rating". -/
theorem handleInput_showByField_known_witness :
    ChefBot.new.handleInput "tell me about ratings".toList (World.initial [] none) =
      ChefBot.new.showByField "rating".toList
        (logChat "tell me about ratings".toList (World.initial [] none)) :=
  (handleInput_showByField_known ChefBot.new "tell me about ratings".toList "rating".toList
    (World.initial [] none) (by decide)).1

/-! ## The order of the categories -/

theorem strLt_cons (a b : Char) (as bs : Str) :
    strLt (a :: as) (b :: bs) = true ↔ a < b ∨ (a = b ∧ strLt as bs = true) := by
  rw [strLt]
  split_ifs with h1 h2
  · simp [h1]
  · have hne : a ≠ b := fun h => by
      subst h
      exact lt_irrefl _ h2
    simp [h1, hne]
  · have hab : a = b := le_antisymm (not_lt.1 h2) (not_lt.1 h1)
    simp [hab]

theorem strLt_trans (a b c : Str) (hab : strLt a b = true) (hbc : strLt b c = true) :
    strLt a c = true := by
  induction a generalizing b c with
  | nil =>
    cases b with
    | nil => simp [strLt] at hab
    | cons y ys =>
      cases c with
      | nil => simp [strLt] at hbc
      | cons z zs => simp [strLt]
  | cons x xs ih =>
    cases b with
    | nil => simp [strLt] at hab
    | cons y ys =>
      cases c with
      | nil => simp [strLt] at hbc
      | cons z zs =>
        rw [strLt_cons] at hab hbc ⊢
        rcases hab with h1 | ⟨h1, h2⟩
        · rcases hbc with h3 | ⟨h3, _⟩
          · exact Or.inl (lt_trans h1 h3)
          · exact Or.inl (h3 ▸ h1)
        · rcases hbc with h3 | ⟨h3, h4⟩
          · exact Or.inl (h1 ▸ h3)
          · exact Or.inr ⟨h1.trans h3, ih ys zs h2 h4⟩

theorem strLt_total (a b : Str) (hab : strLt a b = false) (hba : strLt b a = false) : a = b := by
  induction a generalizing b with
  | nil =>
    cases b with
    | nil => rfl
    | cons y ys => simp [strLt] at hab
  | cons x xs ih =>
    cases b with
    | nil => simp [strLt] at hba
    | cons y ys =>
      have h1 : ¬ (x < y ∨ (x = y ∧ strLt xs ys = true)) := by
        rw [← strLt_cons, hab]
        simp
      have h2 : ¬ (y < x ∨ (y = x ∧ strLt ys xs = true)) := by
        rw [← strLt_cons, hba]
        simp
      have hxy : x = y := by
        rcases lt_trichotomy x y with h | h | h
        · exact absurd (Or.inl h) h1
        · exact h
        · exact absurd (Or.inl h) h2
      subst hxy
      have h3 : strLt xs ys = false := by
        cases h : strLt xs ys
        · rfl
        · exact absurd (Or.inr ⟨rfl, h⟩) h1
      have h4 : strLt ys xs = false := by
        cases h : strLt ys xs
        · rfl
        · exact absurd (Or.inr ⟨rfl, h⟩) h2
      rw [ih ys h3 h4]

theorem mapKeys_mapAssign (m : MenuMap) (k : Str) (v : List MenuItem) :
    ∀ x ∈ mapKeys (mapAssign m k v), x = k ∨ x ∈ mapKeys m := by
  induction m with
  | nil =>
    intro x hx
    simp [mapAssign, mapKeys] at hx
    exact Or.inl hx
  | cons e rest ih =>
    obtain ⟨k0, v0⟩ := e
    intro x hx
    unfold mapAssign at hx
    split_ifs at hx with h1 h2
    · simp only [mapKeys, List.map_cons, List.mem_cons] at hx ⊢
      exact hx
    · simp only [mapKeys, List.map_cons, List.mem_cons] at hx ⊢
      rcases hx with hx | hx
      · exact Or.inr (Or.inl hx)
      · rcases ih x hx with h | h
        · exact Or.inl h
        · exact Or.inr (Or.inr h)
    · simp only [mapKeys, List.map_cons, List.mem_cons] at hx ⊢
      rcases hx with hx | hx
      · exact Or.inl hx
      · exact Or.inr (Or.inr hx)

/-- Assignment to a map keeps its keys strictly ascending. -/
theorem keysAscending_mapAssign (m : MenuMap) (k : Str) (v : List MenuItem)
    (hm : keysAscending m) : keysAscending (mapAssign m k v) := by
  induction m with
  | nil => simp [mapAssign, keysAscending, mapKeys]
  | cons e rest ih =>
    obtain ⟨k0, v0⟩ := e
    unfold keysAscending mapKeys at hm
    rw [List.map_cons, List.pairwise_cons] at hm
    obtain ⟨hk0, hrest⟩ := hm
    unfold mapAssign
    split_ifs with h1 h2
    · unfold keysAscending mapKeys
      rw [List.map_cons, List.pairwise_cons]
      refine ⟨?_, ?_⟩
      · intro x hx
        rw [List.map_cons, List.mem_cons] at hx
        rcases hx with hx | hx
        · exact hx ▸ h1
        · exact strLt_trans _ _ _ h1 (hk0 x hx)
      · rw [List.map_cons, List.pairwise_cons]
        exact ⟨hk0, hrest⟩
    · unfold keysAscending mapKeys
      rw [List.map_cons, List.pairwise_cons]
      refine ⟨?_, ih hrest⟩
      intro x hx
      rcases mapKeys_mapAssign rest k v x hx with h | h
      · exact h ▸ h2
      · exact hk0 x h
    · have hkk : k = k0 := strLt_total k k0 (by simpa using h1) (by simpa using h2)
      subst hkk
      unfold keysAscending mapKeys
      rw [List.map_cons, List.pairwise_cons]
      exact ⟨hk0, hrest⟩

theorem keysAscending_nil : keysAscending [] := by
  simp [keysAscending, mapKeys]

/-- C16. A menu is a `std::map`, so its categories are visited in strictly
ascending order of their names whatever the order of the assignments that built
it.  For the catalog: every restaurant's categories are ascending; Cheezious
(populated as Burgers, Pizzas, Pastas) is traversed as Burgers, Pastas, Pizzas
and Ranchers (populated as Burgers, Wraps, Sandwiches) as Burgers, Sandwiches,
Wraps.  This is the order in which `showMenu` prints the categories, in which
`order` lists them after an unknown category, and in which `recommend` with an
empty filter lists the items: the sandwiches of Ranchers before its wraps. -/
theorem menu_categories_ascending :
    (∀ (m : MenuMap) (k : Str) (v : List MenuItem),
      keysAscending m → keysAscending (mapAssign m k v)) ∧
    (∀ r ∈ ChefBot.new.restaurants, keysAscending r.categorizedMenu) ∧
    (∀ a b c : List MenuItem,
      mapKeys (mapAssign (mapAssign (mapAssign [] "Burgers".toList a) "Pizzas".toList b)
        "Pastas".toList c) = ["Burgers".toList, "Pastas".toList, "Pizzas".toList] ∧
      mapKeys (mapAssign (mapAssign (mapAssign [] "Burgers".toList a) "Wraps".toList b)
        "Sandwiches".toList c) = ["Burgers".toList, "Sandwiches".toList, "Wraps".toList]) ∧
    mapKeys Cheezious.categorizedMenu =
      ["Burgers".toList, "Pastas".toList, "Pizzas".toList] ∧
    mapKeys Ranchers.categorizedMenu =
      ["Burgers".toList, "Sandwiches".toList, "Wraps".toList] ∧
    (Ranchers.showMenu (World.initial [] none)).cout =
      ("  Burgers:\n" ++
       "   - Beef Burger: Rs 480\n" ++ "   - Cheesy Beef Burger: Rs 520\n" ++
       "   - Ranch Beef Burger: Rs 580\n" ++ "   - Double Decker: Rs 620\n" ++
       "  Sandwiches:\n" ++
       "   - Club Sandwich: Rs 400\n" ++ "   - Cheese Sandwich: Rs 370\n" ++
       "  Wraps:\n" ++
       "   - Grilled Wrap: Rs 300\n" ++ "   - Zinger Wrap: Rs 350\n").toList ∧
    (cheapItems Ranchers).map (fun entry => (entry.1, entry.2.name)) =
      [("Burgers".toList, "Beef Burger".toList),
       ("Sandwiches".toList, "Club Sandwich".toList),
       ("Sandwiches".toList, "Cheese Sandwich".toList),
       ("Wraps".toList, "Grilled Wrap".toList),
       ("Wraps".toList, "Zinger Wrap".toList)] ∧
    (" Category 'Pizza' not found.\n" ++
      "Available categories: Burgers Sandwiches Wraps \n").toList <:+
      (ChefBot.new.order (World.initial ["Ranchers".toList, "Pizza".toList] none)).cout := by
  refine ⟨keysAscending_mapAssign, ?_, ?_, by decide, by decide, by decide!, by decide!,
    by decide!⟩
  · intro r hr
    simp only [ChefBot.new, List.mem_cons, List.mem_singleton, List.not_mem_nil, or_false] at hr
    rcases hr with h | h | h <;> subst h <;>
      exact keysAscending_mapAssign _ _ _
        (keysAscending_mapAssign _ _ _ (keysAscending_mapAssign _ _ _ keysAscending_nil))
  · intro a b c
    exact ⟨rfl, rfl⟩

/-- C16 applied to the menu of Howdy, populated as Burgers, BBQ, Steaks: a
further assignment keeps the categories ascending. -/
theorem menu_categories_ascending_witness :
    keysAscending (mapAssign Howdy.categorizedMenu "Desserts".toList []) ∧
    mapKeys (mapAssign Howdy.categorizedMenu "Desserts".toList []) =
      ["BBQ".toList, "Burgers".toList, "Desserts".toList, "Steaks".toList] :=
  ⟨menu_categories_ascending.1 Howdy.categorizedMenu "Desserts".toList []
    (menu_categories_ascending.2.1 Howdy (by decide!)), by decide⟩

/-! ## Keywords without a match -/

theorem recommendListing_of_none (f : Fmt) (keyword : Str) (rs : List Restaurant)
    (h : ∀ r ∈ rs, recommendedOf keyword r = []) : recommendListing f keyword rs = [] := by
  unfold recommendListing
  rw [List.flatten_eq_nil_iff]
  intro l hl
  obtain ⟨r, hr, rfl⟩ := List.mem_map.1 hl
  simp [h r hr]

theorem anyRecommended_of_none (keyword : Str) (rs : List Restaurant)
    (h : ∀ r ∈ rs, recommendedOf keyword r = []) : anyRecommended keyword rs = false := by
  unfold anyRecommended
  rw [List.any_eq_false]
  intro r hr
  simp [h r hr]

/-- C17. Over the built-in catalog every item whose name contains "pizza" or
"pasta" costs more than 500, so `recommend` with either keyword (the keyword
that the advertised inputs "recommend pizza" and "recommend pasta" pass on)
recommends nothing: it prints the title, the rule and the no-match message with
no restaurant header in between, and leaves the recommendations log as it was. -/
theorem recommend_pizza_pasta_no_match (keyword : Str)
    (hk : keyword = "pizza".toList ∨ keyword = "pasta".toList) (w : World) :
    (∀ r ∈ ChefBot.new.restaurants, ∀ c ∈ r.categorizedMenu, ∀ item ∈ c.2,
      toLower keyword <:+: toLower item.name → 500 < item.price) ∧
    (∀ r ∈ ChefBot.new.restaurants, recommendedOf keyword r = []) ∧
    (ChefBot.new.recommend keyword w).cout =
      w.cout ++ "\n RECOMMENDATIONS UNDER Rs ".toList ++ showDouble w.fmt 500 ++
        " (Keyword: ".toList ++ keyword ++ "):\n".toList ++ fill 50 '-' ++ "\n".toList ++
        " No matching items found under Rs ".toList ++ showDouble w.fmt 500 ++
        " with keyword '".toList ++ keyword ++ "'.\n".toList ∧
    (ChefBot.new.recommend keyword w).recommendations = w.recommendations ∧
    dispatch "recommend pizza".toList = Call.recommend "pizza".toList ∧
    dispatch "recommend pasta".toList = Call.recommend "pasta".toList ∧
    ("   • 'recommend pizza' - Show pizza recommendations\n" ++
      "   • 'recommend pasta' - Show pasta recommendations\n").toList <:+:
      (ChefBot.new.showHelp (World.initial [] none)).cout := by
  have hprice : ∀ r ∈ ChefBot.new.restaurants, ∀ c ∈ r.categorizedMenu, ∀ item ∈ c.2,
      toLower keyword <:+: toLower item.name → 500 < item.price := by
    rcases hk with h | h <;> subst h <;> decide!
  have hnone : ∀ r ∈ ChefBot.new.restaurants, recommendedOf keyword r = [] := by
    rcases hk with h | h <;> subst h <;> decide!
  have hne : keyword ≠ [] := by
    rcases hk with h | h <;> subst h <;> decide
  have hany := anyRecommended_of_none keyword _ hnone
  refine ⟨hprice, hnone, ?_, ?_, by decide, by decide, by decide!⟩
  · rw [recommend_world, if_neg hne, recommendFor_world]
    simp only [hany, Bool.false_eq_true, false_and, if_false, print_cout, recommendReport,
      recommendListing_of_none w.fmt keyword _ hnone, hne, List.append_nil, List.append_assoc]
    rfl
  · rw [recommend_world, if_neg hne, recommendFor_world]
    simp only [hany, Bool.false_eq_true, false_and, if_false, print_recommendations]

/-- C17 for "pizza" on a first run: the text printed, and an empty log. -/
theorem recommend_pizza_pasta_no_match_witness :
    (ChefBot.new.recommend "pizza".toList (World.initial [] none)).cout =
      ("\n RECOMMENDATIONS UNDER Rs 500 (Keyword: pizza):\n" ++
       "--------------------------------------------------\n" ++
       " No matching items found under Rs 500 with keyword 'pizza'.\n").toList ∧
    (ChefBot.new.recommend "pizza".toList (World.initial [] none)).recommendations.text = [] :=
  have h := recommend_pizza_pasta_no_match "pizza".toList (Or.inl rfl) (World.initial [] none)
  ⟨h.2.2.1.trans (by decide!), by rw [h.2.2.2.1]; rfl⟩

end CHEFBOT
